import Mathlib

/-!
Verification development for the lfg-backend repository (Go / gin / gorm).

The Go sources are shallowly embedded as Lean definitions:

* `schemas` — the `User` and `Group` structs and their methods
  (`IsFull`, `IsMember`, `IsOpen`, `IsOwner`, `IsPrivate`,
  `ValidatePassword`, `ValidateForCreate`, `ValidateForSignUp`).
  Machine integers (`int16`, `int64`) are modelled as `Int`; the one place
  the code converts a length to `int16` (`IsFull`) uses an explicit
  two's-complement wrap `wrap16`.  Go `len` on a string counts bytes, so
  validation limits use `String.utf8ByteSize`.  The `CreatedAt` timestamps
  and the gorm `DB` handle carried inside the structs are not modelled
  (wall-clock time and the connection object are irrelevant to every claim).
* `middlewares` / `endpoints` — each gin handler becomes a function from a
  request-scoped state `St` to an outcome `Out` (continue with a new state,
  or abort with an HTTP response).  Results of external libraries
  (the JSON binder, strconv, bcrypt, the JWT library, the database driver)
  are inputs in `St`: a field records the outcome the library call would
  produce for this request.  The database is modelled as the record matching
  the `:id` URL parameter (`dbGroup`) plus the user table (`dbUsers`).
  Logging calls are no-ops, with one crucial exception: logrus `Fatal*`
  logs and then calls `os.Exit(1)`.  Every schema database method except
  `User.RetrieveByUsername` logs its error with `Fatal*` — so do
  `CreateConnection` and the migrations — which means the error returns
  that follow those calls, and the handler branches that consume them,
  are dead code: the process terminates with no HTTP response.  These
  paths are modelled by the `fatal` outcome.
* gin's middleware chaining (`Context.Next` / `Abort`, the handler index,
  `abortIndex`) is modelled by `ginNext`/`ginLoop`/`ginExec` with explicit
  fuel, and each route's handler chain is the list registered in `GetAPI`.
-/

namespace LFG

/-- Two's-complement wrap into the `int16` range, used where the Go code
converts an `int` to `int16`. -/
def wrap16 (n : Int) : Int := (n + 32768) % 65536 - 32768

namespace schemas

/-- Source `schemas.FieldError` from errors.go. -/
structure FieldError where
  Name : String
  Error : String
deriving DecidableEq

/-- Source `schemas.ValidationError` from errors.go. -/
structure ValidationError where
  Message : String
  Errors : List FieldError
deriving DecidableEq

/-- Source `schemas.User` (users schema file).  `CreatedAt`, the association
slices and the `DB` handle are not modelled. -/
structure User where
  ID : Int
  Username : String
  Password : String
deriving DecidableEq

/-- The zero value of the Go `User` struct. -/
def zeroUser : User := { ID := 0, Username := "", Password := "" }

/-- Source `schemas.Group` (groups schema file).  `CreatedAt` and the `DB` handle
are not modelled. -/
structure Group where
  ID : Int
  Title : String
  Description : String
  Status : Int
  Password : String
  MaxSize : Int
  OwnerID : Int
  Members : List User
deriving DecidableEq

/-- The zero value of the Go `Group` struct. -/
def zeroGroup : Group :=
  { ID := 0, Title := "", Description := "", Status := 0, Password := "",
    MaxSize := 0, OwnerID := 0, Members := [] }

/-- Source `Group.memberIndex`: `slices.IndexFunc(g.Members, func(m) { m.ID == uid })`,
which returns the first matching index or `-1`. -/
def Group.memberIndex (g : Group) (uid : Int) : Int :=
  match g.Members.findIdx? (fun m => m.ID == uid) with
  | some i => (i : Int)
  | none => -1

/-- Source `Group.IsFull`: `g.MaxSize-1 == int16(len(g.Members))`.  Both the
subtraction and the length conversion are `int16` operations. -/
def Group.IsFull (g : Group) : Bool :=
  wrap16 (g.MaxSize - 1) == wrap16 (g.Members.length : Int)

/-- Source `Group.IsMember`: member index is not `-1`. -/
def Group.IsMember (g : Group) (uid : Int) : Bool :=
  g.memberIndex uid != -1

/-- Source `Group.IsOpen`: `g.Status == 0`. -/
def Group.IsOpen (g : Group) : Bool := g.Status == 0

/-- Source `Group.IsOwner`: `g.OwnerID == uid`. -/
def Group.IsOwner (g : Group) (uid : Int) : Bool := g.OwnerID == uid

/-- Source `Group.IsPrivate`: `g.Password != ""`. -/
def Group.IsPrivate (g : Group) : Bool := g.Password != ""

/-- Source `Group.ValidatePassword`: returns the error
`"incorrect group password"` when the stored password differs from `pw`,
and no error otherwise. -/
def Group.ValidatePassword (g : Group) (pw : String) : Option String :=
  if g.Password != pw then some "incorrect group password" else none

/-- Source `Group.ValidateForCreate`: title required and at most 50 bytes,
description required and at most 200 bytes, `MaxSize` between 5 and 200. -/
def Group.ValidateForCreate (g : Group) : Option ValidationError :=
  let FieldIsReqMsg := "This field is required"
  let titleErrs : List FieldError :=
    if g.Title = "" then
      [{ Name := "title", Error := FieldIsReqMsg }]
    else if 50 < g.Title.utf8ByteSize then
      [{ Name := "title",
         Error := "This field cannot be more than 50 characters long" }]
    else []
  let descErrs : List FieldError :=
    if g.Description = "" then
      [{ Name := "description", Error := FieldIsReqMsg }]
    else if 200 < g.Description.utf8ByteSize then
      [{ Name := "description",
         Error := "This field cannot be more than 200 characters long" }]
    else []
  let sizeErrs : List FieldError :=
    if g.MaxSize < 5 ∨ 200 < g.MaxSize then
      [{ Name := "max_size", Error := "The value should range from 5 to 200" }]
    else []
  let errs := titleErrs ++ descErrs ++ sizeErrs
  if errs.length > 0 then
    some { Message := "The new group is not valid", Errors := errs }
  else none

/-- Source `User.ValidateForSignUp`: username required and at most 50 bytes,
password required and 8 to 200 bytes. -/
def User.ValidateForSignUp (u : User) : Option ValidationError :=
  let FieldIsReqMsg := "This field is required"
  let nameErrs : List FieldError :=
    if u.Username = "" then
      [{ Name := "username", Error := FieldIsReqMsg }]
    else if 50 < u.Username.utf8ByteSize then
      [{ Name := "username",
         Error := "This field cannot be more than 50 characters long" }]
    else []
  let pwErrs : List FieldError :=
    if u.Password = "" then
      [{ Name := "password", Error := FieldIsReqMsg }]
    else if u.Password.utf8ByteSize < 8 ∨ 200 < u.Password.utf8ByteSize then
      [{ Name := "password", Error := "This field has to be 8 to 50 characters long" }]
    else []
  let errs := nameErrs ++ pwErrs
  if errs.length > 0 then
    some { Message := "The request body contains errors", Errors := errs }
  else none

end schemas

open schemas

/-- A response body: an error body (`schemas.BodyError`, message plus
optional field errors), a single group, a list of groups, or a
`schemas.TokenResponse` (the signed JWT string itself comes from the
external library and is not modelled; the embedded user is). -/
inductive RespBody where
  | err (Message : String) (FieldErrors : List FieldError)
  | group (g : Group)
  | groups (gs : List Group)
  | token (u : User)
deriving DecidableEq

/-- An HTTP response: status code and JSON body. -/
structure Resp where
  status : Nat
  body : RespBody
deriving DecidableEq

/-- Source `endpoints.BodyInternalServerError` with `http.StatusInternalServerError`. -/
def internalErrorResp : Resp :=
  { status := 500, body := .err "An internal error occurred in the server" [] }

/-- Source `endpoints.BodyNotFound` with `http.StatusNotFound`. -/
def notFoundResp : Resp :=
  { status := 404, body := .err "The requested resource could not be found" [] }

/-- Outcome of `c.ShouldBindWith(&req, binding.JSON)` for a `schemas.Group`
body: no body at all (the binder returns the `EOF` error), some other
binding error, or a successfully bound struct. -/
inductive GBind where
  | eof
  | err
  | ok (req : Group)
deriving DecidableEq

/-- Outcome of binding a `schemas.User` request body. -/
inductive UBind where
  | eof
  | err
  | ok (req : User)
deriving DecidableEq

/-- The request-scoped state threaded through a handler chain.

The first block holds the request inputs and the outcomes of external
library calls for this request (JSON binder, strconv, database driver,
bcrypt, JWT signing); the `db*Fail` flags say that the corresponding
database call would return an error other than `record not found`
(not-found is represented by a failed lookup in `dbGroup`/`dbUsers`).
The second block is the database: `dbGroup` is the group record matching
the request's `:id` parameter, `dbUsers` the user table.  The third block
holds the gin context keys set by earlier middlewares (`c.Set`). -/
structure St where
  idParam : Option Int
  gBody : GBind
  uBody : UBind
  uid : Int
  dbInitFail : Bool
  retrieveGroupFail : Bool
  saveGroupFail : Bool
  listGroupsFail : Bool
  retrieveUserFail : Bool
  retrieveUserByNameFail : Bool
  createGroupFail : Bool
  createUserFail : Bool
  removeMemberFail : Bool
  jwtFail : Bool
  bcryptOk : Bool
  dbGroup : Option Group
  dbUsers : List User
  keyObj : Option Group
  keyReqG : Option Group
  keyReqU : Option User
deriving DecidableEq

/-- What one handler does with the request: pass it on with an updated
context (`c.Next()` after `c.Set`), abort with a response
(`c.AbortWithStatusJSON`), or terminate the whole process with no
response (`fatal`, the effect of logging a database error with logrus
`Fatal*`, which calls `os.Exit(1)`).  Endpoint handlers, which always
write a response when they survive, are also `halt`, carrying the
database updates in their state. -/
inductive Out where
  | halt (r : Resp) (st : St)
  | go (st : St)
  | fatal (st : St)
deriving DecidableEq

namespace middlewares

/-- Source `middlewares.GroupObject`: parse the `:id` URL parameter, open the
database, retrieve the group with its password
(`Group.RetrieveWithPassword`), and store it under the `obj` key.
A parse failure gives 500 (live, no database involved).  The remaining
error branches of the Go source are dead code: `CreateConnection` logs a
connection failure with `log.Fatalf` and exits before `InitDB` can
return it, and `retrieveGroup` logs any retrieve error — including
`record not found` — with `log.Fatalf` and exits before the 404/500
mapping can run.  So a database failure, or a request naming an absent
group id, terminates the process with no response. -/
def GroupObject (st : St) : Out :=
  match st.idParam with
  | none => .halt internalErrorResp st
  | some _gid =>
    if st.dbInitFail then .fatal st
    else if st.retrieveGroupFail then .fatal st
    else
      match st.dbGroup with
      | none => .fatal st
      | some g => .go { st with keyObj := some g }

/-- Source `middlewares.GroupRequestBody`: bind the JSON body into a `Group`
and store it under the `req` key; any binding error gives 500. -/
def GroupRequestBody (st : St) : Out :=
  match st.gBody with
  | .ok req => .go { st with keyReqG := some req }
  | _ => .halt internalErrorResp st

/-- Source `middlewares.UserRequestBody`: bind the JSON body into a `User`
and store it under the `req` key; any binding error gives 500. -/
def UserRequestBody (st : St) : Out :=
  match st.uBody with
  | .ok req => .go { st with keyReqU := some req }
  | _ => .halt internalErrorResp st

/-- Source `middlewares.AllowIfGroupIsNotFull`: 500 if the `obj` key is missing,
400 `"Group is full"` when `g.IsFull()`.  (In the Go source this abort is
not followed by `return`; the fall-through `c.Next()` is modelled in the
gin layer below.) -/
def AllowIfGroupIsNotFull (st : St) : Out :=
  match st.keyObj with
  | none => .halt internalErrorResp st
  | some g =>
    if g.IsFull then .halt { status := 400, body := .err "Group is full" [] } st
    else .go st

/-- Source `middlewares.AllowIfUserIsNotMember`: 400 when the requesting user is
already a member of the group. -/
def AllowIfUserIsNotMember (st : St) : Out :=
  match st.keyObj with
  | none => .halt internalErrorResp st
  | some g =>
    if g.IsMember st.uid then
      .halt { status := 400, body := .err "User is a member of the group" [] } st
    else .go st

/-- Source `middlewares.AllowIfUserIsNotOwner`: 400 when the requesting user owns
the group. -/
def AllowIfUserIsNotOwner (st : St) : Out :=
  match st.keyObj with
  | none => .halt internalErrorResp st
  | some g =>
    if g.IsOwner st.uid then
      .halt { status := 400, body := .err "User is the owner of the group" [] } st
    else .go st

/-- Source `middlewares.AllowIfUserIsOwner`: 400 when the requesting user does not
own the group. -/
def AllowIfUserIsOwner (st : St) : Out :=
  match st.keyObj with
  | none => .halt internalErrorResp st
  | some g =>
    if !(g.IsOwner st.uid) then
      .halt { status := 400, body := .err "User is not the owner of the group" [] } st
    else .go st

/-- Source `middlewares.AllowIfUserIsMember`: 400 when the requesting user is not
a member of the group. -/
def AllowIfUserIsMember (st : St) : Out :=
  match st.keyObj with
  | none => .halt internalErrorResp st
  | some g =>
    if !(g.IsMember st.uid) then
      .halt { status := 400, body := .err "User is not a member of the group" [] } st
    else .go st

/-- Source `middlewares.AllowIfCorrectGroupPassword`: 404 if the `obj` key is
missing (unlike the other checks, which give 500); pass immediately when
the group is not private; otherwise bind the body (no body at all — the
`EOF` binder error — gives 400 `"Group password is required"`, any other
binding error 500) and validate the supplied password (mismatch gives
403 `"Incorrect password"`). -/
def AllowIfCorrectGroupPassword (st : St) : Out :=
  match st.keyObj with
  | none => .halt notFoundResp st
  | some g =>
    if !g.IsPrivate then .go st
    else
      match st.gBody with
      | .eof => .halt { status := 400, body := .err "Group password is required" [] } st
      | .err => .halt internalErrorResp st
      | .ok req =>
        match g.ValidatePassword req.Password with
        | some _ => .halt { status := 403, body := .err "Incorrect password" [] } st
        | none => .go st

/-- Source `middlewares.AllowIfGroupIsOpen`: 400 `"Group is not open"` when
`g.IsOpen()` is false. -/
def AllowIfGroupIsOpen (st : St) : Out :=
  match st.keyObj with
  | none => .halt internalErrorResp st
  | some g =>
    if !g.IsOpen then
      .halt { status := 400, body := .err "Group is not open" [] } st
    else .go st

end middlewares

namespace endpoints

/-- Source `endpoints.CloseGroup`: set the group status to `-100` and save it.
A save error terminates the process: `Group.Update` logs it with
`log.Fatalf` and exits, so the handler's 500 branch is dead code.  On
success the saved group is returned with the password blanked out of the
response. -/
def CloseGroup (st : St) : Out :=
  let g := st.keyObj.getD zeroGroup
  let g1 := { g with Status := -100 }
  if st.saveGroupFail then .fatal st
  else
    .halt { status := 200, body := .group { g1 with Password := "" } }
      { st with dbGroup := some g1 }

/-- Source `endpoints.CreateGroup`: validate the bound request body
(`ValidateForCreate`, 400 with the field errors on failure), open the
database, set the requesting user as owner and insert the record.  A
database failure terminates the process (`CreateConnection` and
`Group.Create` log errors with `log.Fatalf` and exit, so the handler's
500 branches are dead code).  On success the created group is returned
with status 201, password blanked out of the response.  Every bound
field of the request — including `Status` and `Members` — is stored. -/
def CreateGroup (st : St) : Out :=
  let req := st.keyReqG.getD zeroGroup
  match req.ValidateForCreate with
  | some verr => .halt { status := 400, body := .err verr.Message verr.Errors } st
  | none =>
    if st.dbInitFail then .fatal st
    else
      let req1 := { req with OwnerID := st.uid }
      if st.createGroupFail then .fatal st
      else
        .halt { status := 201, body := .group { req1 with Password := "" } }
          { st with dbGroup := some req1 }

/-- Source `endpoints.JoinGroup`: append `User{ID: user_id}` to the members and
save the group.  A save error terminates the process (`Group.Update` logs
it with `log.Fatalf` and exits; the 500 branch is dead code).  On success
the group (with the appended member) is returned, password blanked out of
the response. -/
def JoinGroup (st : St) : Out :=
  let g := st.keyObj.getD zeroGroup
  let g1 := { g with Members := g.Members ++ [{ zeroUser with ID := st.uid }] }
  if st.saveGroupFail then .fatal st
  else
    .halt { status := 200, body := .group { g1 with Password := "" } }
      { st with dbGroup := some g1 }

/-- Source `endpoints.KickFromGroup`: look up the user named in the request
body, require the user to be a member (400 otherwise), then delete the
membership association.  The handler's 404 (user record not found), 500
(other lookup error) and 500 (delete error) branches are dead code:
`User.Retrieve` and `Group.RemoveMember` log any error — including
record-not-found — with `log.Fatalf` and exit, as does `CreateConnection`
on a connection failure, so those requests terminate the process with no
response.  The only live abort is the not-a-member 400.  The response
body is the loaded group (its in-memory `Members` slice is not updated by
the association delete), password blanked out. -/
def KickFromGroup (st : St) : Out :=
  let req := st.keyReqU.getD zeroUser
  let g := st.keyObj.getD zeroGroup
  if st.dbInitFail then .fatal st
  else if st.retrieveUserFail then .fatal st
  else
    match st.dbUsers.find? (fun u => u.ID == req.ID) with
    | none => .fatal st
    | some _ =>
      if !(g.IsMember req.ID) then
        .halt { status := 400, body := .err "The user to kick is not a member" [] } st
      else if st.removeMemberFail then .fatal st
      else
        let g1 := { g with Members := g.Members.filter (fun m => m.ID != req.ID) }
        .halt { status := 200, body := .group { g with Password := "" } }
          { st with dbGroup := some g1 }

/-- Source `endpoints.LeaveGroup`: look up the requesting user and delete the
membership association.  All four of the handler's 500 branches are dead
code: `CreateConnection`, `User.Retrieve` (also on record-not-found) and
`Group.RemoveMember` log any error with `log.Fatalf` and exit, so a
database failure on this route terminates the process with no response.
On success the response body is the loaded group (its in-memory `Members`
slice is not updated by the association delete), password blanked out. -/
def LeaveGroup (st : St) : Out :=
  let g := st.keyObj.getD zeroGroup
  let u : User := { zeroUser with ID := st.uid }
  if st.dbInitFail then .fatal st
  else if st.retrieveUserFail then .fatal st
  else
    match st.dbUsers.find? (fun x => x.ID == u.ID) with
    | none => .fatal st
    | some _ =>
      if st.removeMemberFail then .fatal st
      else
        let g1 := { g with Members := g.Members.filter (fun m => m.ID != u.ID) }
        .halt { status := 200, body := .group { g with Password := "" } }
          { st with dbGroup := some g1 }

/-- Source `endpoints.ListGroups`: list all groups.  A database failure
terminates the process (`CreateConnection` and `Group.List` log errors
with `log.Fatalf` and exit; the handler's 500 branches are dead code).
`Group.List` selects the columns
`id, title, description, status, max_size, created_at, owner_id` —
not the password — so every returned group carries an empty password. -/
def ListGroups (st : St) : Out :=
  if st.dbInitFail then .fatal st
  else if st.listGroupsFail then .fatal st
  else
    .halt { status := 200,
            body := .groups (st.dbGroup.toList.map (fun g => { g with Password := "" })) }
      st

/-- Source `endpoints.RetrieveGroup`: return the group loaded by `GroupObject`,
password blanked out of the response. -/
def RetrieveGroup (st : St) : Out :=
  let g := st.keyObj.getD zeroGroup
  .halt { status := 200, body := .group { g with Password := "" } } st

/-- The field merge in `endpoints.UpdateGroup` (lines `// Checks for
changes`): a non-empty request title, non-empty description and non-zero
max size overwrite the stored values; zero-valued request fields leave the
stored ones unchanged. -/
def updateGroupFields (req g : Group) : Group :=
  let g1 := if req.Title != "" then { g with Title := req.Title } else g
  let g2 := if req.Description != "" then { g1 with Description := req.Description } else g1
  if req.MaxSize != 0 then { g2 with MaxSize := req.MaxSize } else g2

/-- Source `endpoints.UpdateGroup`: merge the updatable fields into the loaded
group and save it.  A save error terminates the process (`Group.Update`
logs it with `log.Fatalf` and exits; the 500 branch is dead code).  On
success the saved group is returned, password blanked out of the
response. -/
def UpdateGroup (st : St) : Out :=
  let req := st.keyReqG.getD zeroGroup
  let g := st.keyObj.getD zeroGroup
  let g1 := updateGroupFields req g
  if st.saveGroupFail then .fatal st
  else
    .halt { status := 200, body := .group { g1 with Password := "" } }
      { st with dbGroup := some g1 }

/-- Source `endpoints.UpdateGroupPassword`: overwrite the stored password with
the request's and save.  A save error terminates the process
(`Group.Update` logs it with `log.Fatalf` and exits; the 500 branch is
dead code).  On success the group is returned with the password blanked
out of the response. -/
def UpdateGroupPassword (st : St) : Out :=
  let req := st.keyReqG.getD zeroGroup
  let g := st.keyObj.getD zeroGroup
  let g1 := { g with Password := req.Password }
  if st.saveGroupFail then .fatal st
  else
    .halt { status := 200, body := .group { g1 with Password := "" } }
      { st with dbGroup := some g1 }

/-- Source `endpoints.SignUp`: validate the bound user (400 with field errors
on failure, live), open the database and insert the user.  The handler
then inspects the insert error — mapping the username UNIQUE-constraint
message to 400 `"User already exists."` and other insert errors to 500 —
but both branches are dead code: `User.Create` logs any insert error,
including the UNIQUE violation on a taken username, with `log.Fatalf` and
exits first, as does `CreateConnection` on a connection failure.  So a
duplicate username or any other insert failure terminates the process
with no response.  A JWT signing error gives 500 (live, not a database
call); on success a 201 token response is returned with the user's
password blanked out.  (The bcrypt hashing performed by the
`BeforeCreate` gorm hook is external and not modelled; the stored
credential is never read back by any claim.) -/
def SignUp (st : St) : Out :=
  let u := st.keyReqU.getD zeroUser
  match u.ValidateForSignUp with
  | some verr => .halt { status := 400, body := .err verr.Message verr.Errors } st
  | none =>
    if st.dbInitFail then .fatal st
    else if st.dbUsers.any (fun x => x.Username == u.Username) then
      .fatal st
    else if st.createUserFail then .fatal st
    else if st.jwtFail then .halt internalErrorResp st
    else
      .halt { status := 201, body := .token { u with Password := "" } }
        { st with dbUsers := st.dbUsers ++ [u] }

/-- Source `endpoints.SignIn`: look up the user by username.  Uniquely among
the schema database methods, `User.RetrieveByUsername` logs its error
with `log.Errorf` — not `Fatalf` — and returns it, so the handler's error
branches here are live: a record-not-found gives 401 invalid-credentials
and any other lookup error gives 500.  (A connection failure still
terminates the process in `CreateConnection`.)  The supplied password is
compared against the stored bcrypt hash (the external comparison outcome
is the `bcryptOk` input; a mismatch gives 401) and a 201 token response
is returned with the password blanked out.  A JWT signing error gives
500. -/
def SignIn (st : St) : Out :=
  let u := st.keyReqU.getD zeroUser
  let invalidCreds : Resp :=
    { status := 401, body := .err "username or password is invalid." [] }
  if st.dbInitFail then .fatal st
  else if st.retrieveUserByNameFail then .halt internalErrorResp st
  else
    match st.dbUsers.find? (fun x => x.Username == u.Username) with
    | none => .halt invalidCreds st
    | some u0 =>
      if !st.bcryptOk then .halt invalidCreds st
      else if st.jwtFail then .halt internalErrorResp st
      else .halt { status := 201, body := .token { u0 with Password := "" } } st

end endpoints

/-- The handlers that appear in the route registrations of `GetAPI`
(main file).  The `h*` constructors are the endpoint handlers, the rest
are middlewares. -/
inductive Mw where
  | groupObject | groupRequestBody | userRequestBody
  | allowNotFull | allowNotMember | allowNotOwner
  | allowOwner | allowMember | allowOpen | allowPassword
  | hClose | hCreate | hJoin | hKick | hLeave | hList
  | hRetrieve | hUpdate | hUpdatePassword | hSignUp | hSignIn
deriving DecidableEq

/-- Endpoint handlers (registered last in each chain); they write a
response and never call `c.Next()`. -/
def Mw.isHandler : Mw → Bool
  | .hClose | .hCreate | .hJoin | .hKick | .hLeave | .hList
  | .hRetrieve | .hUpdate | .hUpdatePassword | .hSignUp | .hSignIn => true
  | _ => false

/-- Source `AllowIfGroupIsNotFull` is the one middleware whose abort is not
followed by `return` in the Go source: after aborting it still falls
through to its trailing `c.Next()` call. -/
def Mw.missingReturn : Mw → Bool
  | .allowNotFull => true
  | _ => false

/-- The body of each registered handler, as a pure step on the request
state. -/
def step : Mw → St → Out
  | .groupObject => middlewares.GroupObject
  | .groupRequestBody => middlewares.GroupRequestBody
  | .userRequestBody => middlewares.UserRequestBody
  | .allowNotFull => middlewares.AllowIfGroupIsNotFull
  | .allowNotMember => middlewares.AllowIfUserIsNotMember
  | .allowNotOwner => middlewares.AllowIfUserIsNotOwner
  | .allowOwner => middlewares.AllowIfUserIsOwner
  | .allowMember => middlewares.AllowIfUserIsMember
  | .allowOpen => middlewares.AllowIfGroupIsOpen
  | .allowPassword => middlewares.AllowIfCorrectGroupPassword
  | .hClose => endpoints.CloseGroup
  | .hCreate => endpoints.CreateGroup
  | .hJoin => endpoints.JoinGroup
  | .hKick => endpoints.KickFromGroup
  | .hLeave => endpoints.LeaveGroup
  | .hList => endpoints.ListGroups
  | .hRetrieve => endpoints.RetrieveGroup
  | .hUpdate => endpoints.UpdateGroup
  | .hUpdatePassword => endpoints.UpdateGroupPassword
  | .hSignUp => endpoints.SignUp
  | .hSignIn => endpoints.SignIn

/-- Route `POST /groups/:id/close` (from `GetAPI`). -/
def closeChain : List Mw := [.groupObject, .allowOwner, .allowOpen, .hClose]

/-- Route `GET /groups` (from `GetAPI`). -/
def listChain : List Mw := [.hList]

/-- Route `POST /groups` (from `GetAPI`). -/
def createChain : List Mw := [.groupRequestBody, .hCreate]

/-- Route `PATCH /groups/:id` (from `GetAPI`). -/
def updateChain : List Mw :=
  [.groupObject, .allowOwner, .allowOpen, .groupRequestBody, .hUpdate]

/-- Route `PATCH /groups/:id/password` (from `GetAPI`). -/
def updatePasswordChain : List Mw :=
  [.groupObject, .allowOwner, .allowOpen, .groupRequestBody, .hUpdatePassword]

/-- Route `GET /groups/:id` (from `GetAPI`). -/
def retrieveChain : List Mw := [.groupObject, .hRetrieve]

/-- Route `POST /groups/:id/join` (from `GetAPI`). -/
def joinChain : List Mw :=
  [.groupObject, .allowNotFull, .allowNotMember, .allowNotOwner,
   .allowOpen, .allowPassword, .hJoin]

/-- Route `POST /groups/:id/leave` (from `GetAPI`). -/
def leaveChain : List Mw := [.groupObject, .allowOpen, .allowMember, .hLeave]

/-- Route `POST /groups/:id/kick` (from `GetAPI`). -/
def kickChain : List Mw :=
  [.userRequestBody, .groupObject, .allowOpen, .allowOwner, .hKick]

/-- Route `POST /sign-up` (from `GetAPI`). -/
def signUpChain : List Mw := [.userRequestBody, .hSignUp]

/-- Route `POST /sign-in` (from `GetAPI`). -/
def signInChain : List Mw := [.userRequestBody, .hSignIn]

/-- The group-route chains registered in `GetAPI`, in registration order.
(The group-wide `AuthenticateRequests` middleware installed with `Use` is
modelled separately; it only sets `user_id`, which is the `uid` input.) -/
def registeredChains : List (List Mw) :=
  [closeChain, listChain, createChain, updateChain, updatePasswordChain,
   retrieveChain, joinChain, leaveChain, kickChain]

/-- The result of running a chain: a written response, a pass-through with
no response (never reached by a complete registered chain), or process
termination by a logrus `Fatal*` call with no response. -/
inductive RunOut where
  | resp (r : Resp) (st : St)
  | pass (st : St)
  | fatal (st : St)
deriving DecidableEq

/-- The response a run wrote, if any. -/
def RunOut.resp? : RunOut → Option Resp
  | .resp r _ => some r
  | .pass _ => none
  | .fatal _ => none

/-- The request state a run ended in (for a `fatal` run, the state at the
moment the process exited — in particular the database rows then on
disk). -/
def RunOut.st : RunOut → St
  | .resp _ st => st
  | .pass st => st
  | .fatal st => st

/-- Did the run terminate the process? -/
def RunOut.isFatal : RunOut → Bool
  | .fatal _ => true
  | _ => false

/-- Did the run fall off the end of the chain without a response? -/
def RunOut.isPass : RunOut → Bool
  | .pass _ => true
  | _ => false

/-- Reference semantics of a handler chain: run the handlers in
registration order; the first one that aborts ends the request with its
response, the first `Fatal*` database error ends the whole process with
no response, and a handler that passes hands its updated state to the
next. -/
def specRun : List Mw → St → RunOut
  | [], st => .pass st
  | m :: ms, st =>
    match step m st with
    | .halt r st1 => .resp r st1
    | .fatal st1 => .fatal st1
    | .go st1 => specRun ms st1

/-- The gin request context: the registered handler chain, the running
handler index (`Context.index`), the written response, the request-scoped
state, and whether a logrus `Fatal*` call has terminated the process
(`dead`). -/
structure Ctx where
  handlers : List Mw
  index : Nat
  resp : Option Resp
  st : St
  dead : Bool
deriving DecidableEq

/-- Gin `Context.AbortWithStatusJSON`: write the response and set the index to
gin's `abortIndex` (63), so that any pending `Next` loop stops. -/
def Ctx.abort (c : Ctx) (r : Resp) : Ctx := { c with resp := some r, index := 63 }

/-- The effect of logrus `Fatal*`: `os.Exit(1)`.  Execution stops at once —
no response is written, no later handler runs (the index is pushed past
gin's `abortIndex` so every pending loop finds nothing left to do). -/
def Ctx.exit (c : Ctx) (st1 : St) : Ctx :=
  { c with st := st1, dead := true, index := 63 }

mutual

/-- Gin `Context.Next`: advance the index, then run handlers while the index
is within the chain (fuel makes the mutual recursion structural; every
run below has fuel to spare). -/
def ginNext : Nat → Ctx → Ctx
  | 0, c => c
  | fuel + 1, c => ginLoop fuel { c with index := c.index + 1 }

/-- The loop inside `Context.Next`: run the handler at the current index
and advance; stop once the index leaves the chain (in particular after an
abort set it to 63). -/
def ginLoop : Nat → Ctx → Ctx
  | 0, c => c
  | fuel + 1, c =>
    match c.handlers[c.index]? with
    | none => c
    | some m =>
      let c1 := ginExec fuel m c
      ginLoop fuel { c1 with index := c1.index + 1 }

/-- One handler, as gin runs it: an endpoint handler computes its outcome
and returns (never calling `Next`); a middleware aborts and returns on a
`halt` outcome — except `AllowIfGroupIsNotFull`, which lacks the `return`
and falls through to `c.Next()` after aborting — and calls `c.Next()`
after updating the context on a `go` outcome.  A `fatal` outcome is the
process exiting inside the handler: nothing further runs. -/
def ginExec : Nat → Mw → Ctx → Ctx
  | 0, _, c => c
  | fuel + 1, m, c =>
    if m.isHandler then
      match step m c.st with
      | .halt r st1 => { c with resp := some r, st := st1 }
      | .go st1 => { c with st := st1 }
      | .fatal st1 => Ctx.exit c st1
    else
      match step m c.st with
      | .halt r st1 =>
        let c1 := Ctx.abort { c with st := st1 } r
        if m.missingReturn then ginNext fuel c1 else c1
      | .go st1 => ginNext fuel { c with st := st1 }
      | .fatal st1 => Ctx.exit c st1

end

/-- Fuel that is ample for every registered chain. -/
def ginFuel : Nat := 1000

/-- Run a route's chain the way gin's engine does: the chain starts with
the index before the first handler and the engine calls `Next`. -/
def ginRun (chain : List Mw) (st : St) : Ctx :=
  ginLoop ginFuel
    { handlers := chain, index := 0, resp := none, st := st, dead := false }

namespace middlewares

/-- Go's `strings.Split(s, " ")` on a single-character separator: split at
every space, keeping empty fields (`"abc"` gives `["abc"]`, `"a b"` gives
`["a", "b"]`). -/
def goSplitSpaceAux : List Char → List Char → List (List Char)
  | [], acc => [acc.reverse]
  | ch :: cs, acc =>
    if ch = ' ' then acc.reverse :: goSplitSpaceAux cs []
    else goSplitSpaceAux cs (ch :: acc)

/-- Source `strings.Split(ah, " ")` as a list of strings. -/
def goSplitSpace (s : String) : List String :=
  (goSplitSpaceAux s.toList []).map (fun l => String.mk l)

/-- Outcome of `parseJwt` on the extracted token, i.e. of the external JWT
library call: the signing method was not HMAC, some other parse or
validation error, or a valid token whose claims may or may not carry a
numeric `user_id`. -/
inductive JwtParse where
  | badMethod
  | otherErr
  | valid (userId : Option Int)
deriving DecidableEq

/-- Outcome of the authentication middleware: abort with a response, set
`user_id` and continue, or crash the handler (a Go runtime panic). -/
inductive AuthOut where
  | abort (r : Resp)
  | setUser (uid : Int)
  | panicked
deriving DecidableEq

/-- Source `middlewares.AuthenticateRequests`: an empty `Authorization` header
gives 401; otherwise the code takes `strings.Split(ah, " ")[1]` — a panic
when the split has fewer than two fields — and parses it (the library
outcome is the `parse` input): an unexpected-signing-method error gives
401 `"Token is invalid"`, any other parse error 500; on success
`claims["user_id"].(float64)` is a panic when the claim is absent or not a
number, else `user_id` is set and the request continues.  (Numeric JWT
claims decode as `float64`; ids are modelled as integers.) -/
def AuthenticateRequests (ah : String) (parse : JwtParse) : AuthOut :=
  if ah = "" then
    .abort { status := 401, body := .err "Authorization header is missing" [] }
  else
    match (goSplitSpace ah)[1]? with
    | none => .panicked
    | some _token =>
      match parse with
      | .badMethod => .abort { status := 401, body := .err "Token is invalid" [] }
      | .otherErr => .abort internalErrorResp
      | .valid none => .panicked
      | .valid (some uid) => .setUser uid

end middlewares

/-- The persistent database state across requests: the single group the
requests address, and the user table. -/
structure Sys where
  dbGroup : Option Group
  dbUsers : List User
deriving DecidableEq

/-- One API request in a trace, with the inputs the client controls. -/
inductive Op where
  | createOp (req : Group) (uid : Int)
  | joinOp (uid : Int) (body : GBind)
  | leaveOp (uid : Int)
  | kickOp (uid : Int) (body : UBind)
  | updateOp (req : Group) (uid : Int)
  | updatePasswordOp (req : Group) (uid : Int)
  | closeOp (uid : Int)
deriving DecidableEq

/-- The route chain an operation goes through. -/
def Op.chain : Op → List Mw
  | .createOp .. => createChain
  | .joinOp .. => joinChain
  | .leaveOp .. => leaveChain
  | .kickOp .. => kickChain
  | .updateOp .. => updateChain
  | .updatePasswordOp .. => updatePasswordChain
  | .closeOp .. => closeChain

/-- The request state for an operation against the current database:
external calls succeed (all failure oracles are off), the context keys are
empty, and the request inputs come from the operation. -/
def Op.mkSt (op : Op) (s : Sys) : St :=
  let base : St :=
    { idParam := some 1, gBody := .eof, uBody := .eof, uid := 0,
      dbInitFail := false, retrieveGroupFail := false, saveGroupFail := false,
      listGroupsFail := false, retrieveUserFail := false,
      retrieveUserByNameFail := false, createGroupFail := false,
      createUserFail := false, removeMemberFail := false, jwtFail := false,
      bcryptOk := true, dbGroup := s.dbGroup, dbUsers := s.dbUsers,
      keyObj := none, keyReqG := none, keyReqU := none }
  match op with
  | .createOp req uid => { base with gBody := .ok req, uid := uid }
  | .joinOp uid body => { base with gBody := body, uid := uid }
  | .leaveOp uid => { base with uid := uid }
  | .kickOp uid body => { base with uBody := body, uid := uid }
  | .updateOp req uid => { base with gBody := .ok req, uid := uid }
  | .updatePasswordOp req uid => { base with gBody := .ok req, uid := uid }
  | .closeOp uid => { base with uid := uid }

/-- Run one request against the database and keep its database effect (for
a `fatal` run this is the database as the process left it, i.e. the state
a restarted server would see). -/
def Op.exec (op : Op) (s : Sys) : Sys :=
  let r := specRun op.chain (op.mkSt s)
  { dbGroup := r.st.dbGroup, dbUsers := r.st.dbUsers }

/-- The response of one request against the database. -/
def Op.resp (op : Op) (s : Sys) : Option Resp :=
  (specRun op.chain (op.mkSt s)).resp?

/-- Run a trace of requests, oldest first. -/
def execTrace (ops : List Op) (s : Sys) : Sys :=
  ops.foldl (fun acc op => op.exec acc) s

/-- A chain is well formed when every handler before the last position is
a middleware; every chain registered in `GetAPI` is. -/
def chainWf (l : List Mw) : Bool := l.dropLast.all (fun m => !m.isHandler)

/-- The groups contained in a response body. -/
def respGroups : RespBody → List Group
  | .group g => [g]
  | .groups gs => gs
  | _ => []

/-- The capacity invariant the specification states for a group: the
membership never exceeds the capacity minus one (the owner slot), with the
capacity inside the validated creation range. -/
def InvG (g : Group) : Prop :=
  (g.Members.length : Int) ≤ g.MaxSize - 1 ∧ 5 ≤ g.MaxSize ∧ g.MaxSize ≤ 200

/-- The capacity invariant over the database. -/
def InvSys (s : Sys) : Prop := ∀ g, s.dbGroup = some g → InvG g

/-- Requests that do not exploit the two mass-assignment holes the
capacity invariant needs closed: a create request carries no seeded member
list, and an update request does not change `max_size`. -/
def wfC1 : Op → Bool
  | .createOp req _ => req.Members.isEmpty
  | .updateOp req _ => req.MaxSize == 0
  | _ => true

/-- Requests whose create bodies do not seed a non-zero status. -/
def wfC5 : Op → Bool
  | .createOp req _ => req.Status == 0
  | _ => true

/-- The group-status invariant the specification states: open (`0`) or
closed (`-100`). -/
def Inv5 (s : Sys) : Prop := ∀ g, s.dbGroup = some g → g.Status = 0 ∨ g.Status = -100

/-- A request state with every external-call oracle succeeding and
nothing bound yet. -/
def stdSt : St :=
  { idParam := some 1, gBody := .eof, uBody := .eof, uid := 0,
    dbInitFail := false, retrieveGroupFail := false, saveGroupFail := false,
    listGroupsFail := false, retrieveUserFail := false,
    retrieveUserByNameFail := false, createGroupFail := false,
    createUserFail := false, removeMemberFail := false, jwtFail := false,
    bcryptOk := true, dbGroup := none, dbUsers := [],
    keyObj := none, keyReqG := none, keyReqU := none }

/-- Five users, a full complement for a capacity-5 group. -/
def seedMembers : List User :=
  [{ ID := 1, Username := "", Password := "" },
   { ID := 2, Username := "", Password := "" },
   { ID := 3, Username := "", Password := "" },
   { ID := 4, Username := "", Password := "" },
   { ID := 5, Username := "", Password := "" }]

/-- A create request that passes `ValidateForCreate` and seeds five
members through the bound `members` field. -/
def seededCreateReq : Group :=
  { ID := 0, Title := "raid", Description := "weekly raid", Status := 0,
    Password := "", MaxSize := 5, OwnerID := 0, Members := seedMembers }

/-- The create-then-join trace behind the capacity counterexample. -/
def c1Trace : List Op := [.createOp seededCreateReq 100, .joinOp 6 .eof]

/-- A well-formed create request: no seeded members. -/
def plainCreateReq : Group := { seededCreateReq with Members := [] }

/-- A create request seeding status `7` through the bound `status` field. -/
def status7Req : Group := { plainCreateReq with Status := 7 }

/-- An open capacity-5 group with four members, owned by user 100. -/
def openGroup4 : Group :=
  { ID := 1, Title := "raid", Description := "weekly raid", Status := 0,
    Password := "", MaxSize := 5, OwnerID := 100,
    Members := seedMembers.take 4 }

/-- The same group beyond capacity: five members with capacity 5. -/
def overfullGroup : Group := { openGroup4 with Members := seedMembers }

/-- The same group closed. -/
def closedGroup : Group := { openGroup4 with Status := -100 }

/-- A private open group (password `"hunter2"`), no members. -/
def privateGroup : Group :=
  { openGroup4 with Password := "hunter2", Members := [] }

/-- The same open capacity-5 group with three members. -/
def openGroup3 : Group := { openGroup4 with Members := seedMembers.take 3 }

/-- Request state whose loaded group is over capacity. -/
def c6St : St := { stdSt with keyObj := some overfullGroup }

/-- Request state whose loaded group has three of four slots free. -/
def c6wSt : St := { stdSt with keyObj := some openGroup3 }

/-- Request state for a correct join of the private group. -/
def c7wSt : St :=
  { stdSt with
    keyObj := some privateGroup,
    gBody := .ok ({ zeroGroup with Password := "hunter2" }) }

/-- An update request changing only the title. -/
def titleOnlyReq : Group := { zeroGroup with Title := "new title" }

/-- Request state for the title-only update of `openGroup4`. -/
def c9wSt : St :=
  { stdSt with keyObj := some openGroup4, keyReqG := some titleOnlyReq }

/-- A join request addressed at the full group (four members, capacity
five): the capacity check is the first to fail. -/
def c2St : St := { stdSt with dbGroup := some openGroup4, uid := 6 }

/-- The capacity-check rejection. -/
def groupFullResp : Resp := { status := 400, body := .err "Group is full" [] }

/-- A request addressed at the closed group. -/
def c4wSt : St := { stdSt with dbGroup := some closedGroup, uid := 6 }

/-- A valid sign-up/sign-in body. -/
def aliceReq : User := { ID := 0, Username := "alice", Password := "password1" }

/-- The stored user row for the same username. -/
def aliceRow : User := { ID := 7, Username := "alice", Password := "stored-hash" }

/-- Sign-up of an already-taken username. -/
def c3St : St := { stdSt with uBody := .ok aliceReq, dbUsers := [aliceRow] }

/-- A retrieve request whose group lookup succeeds. -/
def c10wSt : St := { stdSt with dbGroup := some privateGroup }

/-- A create-then-join trace with a plain (memberless) create request. -/
def c1WfTrace : List Op := [.createOp plainCreateReq 100, .joinOp 6 .eof]

/-- The group the well-formed create-then-join trace produces. -/
def c1WitnessGroup : Group :=
  { plainCreateReq with
    OwnerID := 100,
    Members := [({ ID := 6, Username := "", Password := "" } : User)] }

/-- A create-then-close trace. -/
def c5WfTrace : List Op := [.createOp plainCreateReq 100, .closeOp 100]

/-- The group the create-then-close trace produces. -/
def c5WitnessGroup : Group := { plainCreateReq with OwnerID := 100, Status := -100 }

/-- Sign-in of a user that does not exist in the user table. -/
def c3wSt : St := { stdSt with keyReqU := some aliceReq }

/-- A group lookup that fails with an error other than record-not-found:
`retrieveGroup` logs it fatally and the process exits. -/
def c3wSt2 : St := { stdSt with retrieveGroupFail := true }

/-- A sign-in request whose username has no stored row: the live
`RetrieveByUsername` lookup returns gorm's record-not-found error. -/
def c3SignInSt : St := { stdSt with uBody := .ok aliceReq }

/-- None of the gin execution functions touch the registered chain. -/
lemma gin_handlers (f : Nat) :
    (∀ c, (ginNext f c).handlers = c.handlers) ∧
    (∀ c, (ginLoop f c).handlers = c.handlers) ∧
    (∀ m c, (ginExec f m c).handlers = c.handlers) := by
  induction f with
  | zero => exact ⟨fun c => rfl, fun c => rfl, fun m c => rfl⟩
  | succ f ih =>
    obtain ⟨ihN, ihL, ihE⟩ := ih
    refine ⟨fun c => ?_, fun c => ?_, fun m c => ?_⟩
    · rw [ginNext, ihL]
    · rw [ginLoop]
      cases c.handlers[c.index]? with
      | none => rfl
      | some m => rw [ihL, ihE]
    · rw [ginExec]
      by_cases hh : m.isHandler <;> simp only [hh]
      · cases step m c.st <;> rfl
      · cases step m c.st with
        | halt r st1 =>
          simp only [Bool.false_eq_true, if_false]
          by_cases hm : m.missingReturn <;> simp only [hm]
          · simp only [if_true]; rw [ihN]; rfl
          · rfl
        | go st1 =>
          simp only [Bool.false_eq_true, if_false]
          rw [ihN]
        | fatal st1 =>
          simp only [Bool.false_eq_true, if_false]
          rfl

lemma ginLoop_handlers (f : Nat) (c : Ctx) : (ginLoop f c).handlers = c.handlers :=
  (gin_handlers f).2.1 c

/-- In a well-formed chain a handler can only sit at the last position. -/
lemma handler_is_last {l : List Mw} {i : Nat} (hwf : chainWf l = true)
    (hi : i < l.length) (hh : (l[i].isHandler) = true) : i + 1 = l.length := by
  by_contra hne
  have hlt : i < l.dropLast.length := by
    rw [List.length_dropLast]; omega
  have hmem : l.dropLast[i] ∈ l.dropLast := List.getElem_mem hlt
  have := List.all_eq_true.mp hwf _ hmem
  rw [List.getElem_dropLast] at this
  simp only [Bool.not_eq_eq_eq_not, Bool.not_true] at this
  rw [hh] at this
  exact absurd this (by simp)

/-- A context whose index has left the chain is inert. -/
lemma ginLoop_stopped (f : Nat) (c : Ctx) (h : c.handlers.length ≤ c.index) :
    ginLoop f c = c := by
  cases f with
  | zero => rfl
  | succ f =>
    have hnone : c.handlers[c.index]? = none := List.getElem?_eq_none h
    rw [ginLoop, hnone]

/-- gin's indexed `Next`/abort execution computes the reference
short-circuit semantics `specRun`: starting at index `i` with no response
written and the process alive, the final response, state and liveness are
those of `specRun` on the chain suffix, and the final index has left the
chain. -/
lemma ginLoop_spec :
    ∀ n f (c : Ctx), c.handlers.length ≤ 63 → chainWf c.handlers = true →
    c.resp = none → c.dead = false → c.handlers.length ≤ c.index + n →
    3 * n + 1 ≤ f →
    (ginLoop f c).resp = (specRun (c.handlers.drop c.index) c.st).resp? ∧
    (ginLoop f c).st = (specRun (c.handlers.drop c.index) c.st).st ∧
    (ginLoop f c).dead = (specRun (c.handlers.drop c.index) c.st).isFatal ∧
    c.handlers.length ≤ (ginLoop f c).index := by
  intro n
  induction n with
  | zero =>
    intro f c h63 hwf hresp hdead hrem hf
    have hdrop : c.handlers.drop c.index = [] := List.drop_eq_nil_of_le (by omega)
    rw [ginLoop_stopped f c (by omega), hdrop]
    exact ⟨hresp, rfl, hdead, by omega⟩
  | succ n ih =>
    intro f c h63 hwf hresp hdead hrem hf
    by_cases hend : c.handlers.length ≤ c.index
    · have hdrop : c.handlers.drop c.index = [] := List.drop_eq_nil_of_le hend
      rw [ginLoop_stopped f c hend, hdrop]
      exact ⟨hresp, rfl, hdead, by omega⟩
    · have hidx : c.index < c.handlers.length := by omega
      obtain ⟨k, rfl⟩ : ∃ k, f = k + 4 := ⟨f - 4, by omega⟩
      have hsome : c.handlers[c.index]? = some c.handlers[c.index] :=
        List.getElem?_eq_getElem hidx
      have hdrop : c.handlers.drop c.index =
          c.handlers[c.index] :: c.handlers.drop (c.index + 1) :=
        List.drop_eq_getElem_cons hidx
      set m := c.handlers[c.index] with hm
      have hunfold : ginLoop (k + 4) c =
          ginLoop (k + 3)
            { ginExec (k + 3) m c with index := (ginExec (k + 3) m c).index + 1 } := by
        rw [show k + 4 = (k + 3) + 1 from rfl, ginLoop, hsome]
      rw [hunfold, hdrop]
      by_cases hh : m.isHandler = true
      · -- handler: well-formedness puts it at the last position
        have hlast : c.index + 1 = c.handlers.length := handler_is_last hwf hidx hh
        have hex : ginExec (k + 3) m c =
            (match step m c.st with
             | .halt r st1 => { c with resp := some r, st := st1 }
             | .go st1 => { c with st := st1 }
             | .fatal st1 => Ctx.exit c st1) := by
          rw [show k + 3 = (k + 2) + 1 from rfl, ginExec, if_pos hh]
        cases hstep : step m c.st with
        | halt r st1 =>
          rw [hstep] at hex
          dsimp only at hex
          rw [hex, ginLoop_stopped _ _ (by simp; omega)]
          have hdrop2 : c.handlers.drop (c.index + 1) = [] :=
            List.drop_eq_nil_of_le (by omega)
          simp [specRun, hstep, hdrop2, RunOut.resp?, RunOut.st, RunOut.isFatal, hdead]
          omega
        | go st1 =>
          rw [hstep] at hex
          dsimp only at hex
          rw [hex, ginLoop_stopped _ _ (by simp; omega)]
          have hdrop2 : c.handlers.drop (c.index + 1) = [] :=
            List.drop_eq_nil_of_le (by omega)
          simp [specRun, hstep, hdrop2, hresp, RunOut.resp?, RunOut.st, RunOut.isFatal,
            hdead]
          omega
        | fatal st1 =>
          rw [hstep] at hex
          dsimp only at hex
          rw [hex, ginLoop_stopped _ _ (by simp [Ctx.exit]; omega)]
          simp [specRun, hstep, Ctx.exit, hresp, RunOut.resp?, RunOut.st, RunOut.isFatal]
          omega
      · have hexbase : ginExec (k + 3) m c =
            (match step m c.st with
             | .halt r st1 =>
               let c1 := Ctx.abort { c with st := st1 } r
               if m.missingReturn = true then ginNext (k + 2) c1 else c1
             | .go st1 => ginNext (k + 2) { c with st := st1 }
             | .fatal st1 => Ctx.exit c st1) := by
          rw [show k + 3 = (k + 2) + 1 from rfl, ginExec, if_neg hh]
        cases hstep : step m c.st with
        | halt r st1 =>
          rw [hstep] at hexbase
          dsimp only at hexbase
          have habort : ginExec (k + 3) m c =
              (if m.missingReturn = true then
                { Ctx.abort { c with st := st1 } r with index := 64 }
              else Ctx.abort { c with st := st1 } r) := by
            rw [hexbase]
            by_cases hmr : m.missingReturn = true
            · rw [if_pos hmr, if_pos hmr,
                show k + 2 = (k + 1) + 1 from rfl, ginNext,
                ginLoop_stopped _ _ (by simp [Ctx.abort]; omega)]
              rfl
            · rw [if_neg hmr, if_neg hmr]
          rw [habort]
          by_cases hmr : m.missingReturn = true <;>
            [rw [if_pos hmr, ginLoop_stopped _ _ (by simp [Ctx.abort]; omega)];
             rw [if_neg hmr, ginLoop_stopped _ _ (by simp [Ctx.abort]; omega)]] <;>
            · simp [specRun, hstep, Ctx.abort, RunOut.resp?, RunOut.st, RunOut.isFatal,
                hdead]
              omega
        | fatal st1 =>
          rw [hstep] at hexbase
          dsimp only at hexbase
          rw [hexbase, ginLoop_stopped _ _ (by simp [Ctx.exit]; omega)]
          simp [specRun, hstep, Ctx.exit, hresp, RunOut.resp?, RunOut.st, RunOut.isFatal]
          omega
        | go st1 =>
          rw [hstep] at hexbase
          dsimp only at hexbase
          have hnext : ginExec (k + 3) m c =
              ginLoop (k + 1) { c with st := st1, index := c.index + 1 } := by
            rw [hexbase, show k + 2 = (k + 1) + 1 from rfl, ginNext]
          set d := ginLoop (k + 1) { c with st := st1, index := c.index + 1 } with hd
          have ihres := ih (k + 1) { c with st := st1, index := c.index + 1 }
            (by dsimp only; exact h63) (by dsimp only; exact hwf)
            (by dsimp only; exact hresp) (by dsimp only; exact hdead)
            (by dsimp only; omega) (by omega)
          dsimp only at ihres
          rw [← hd] at ihres
          obtain ⟨ih1, ih2, ih3, ih4⟩ := ihres
          have hdh : d.handlers = c.handlers := by
            rw [hd]; exact ginLoop_handlers _ _
          rw [hnext, ginLoop_stopped _ _ (by dsimp only; rw [hdh]; omega)]
          simp only [specRun, hstep]
          exact ⟨ih1, ih2, ih3, by omega⟩

/-- gin's execution of a route agrees with the reference short-circuit
semantics on the response, on the final state and on whether the process
died. -/
lemma ginRun_spec (chain : List Mw) (st : St)
    (h63 : chain.length ≤ 63) (hwf : chainWf chain = true) :
    (ginRun chain st).resp = (specRun chain st).resp? ∧
    (ginRun chain st).st = (specRun chain st).st ∧
    (ginRun chain st).dead = (specRun chain st).isFatal := by
  have h := ginLoop_spec chain.length ginFuel
    { handlers := chain, index := 0, resp := none, st := st, dead := false }
    h63 hwf rfl rfl (by dsimp only; omega) (by simp [ginFuel]; omega)
  dsimp only at h
  rw [List.drop_zero] at h
  exact ⟨h.1, h.2.1, h.2.2.1⟩

/-- A middleware that halts leaves the request state untouched and
responds with an HTTP error status. -/
lemma step_mw_halt {m : Mw} (hm : m.isHandler = false) {st st1 : St} {r : Resp}
    (h : step m st = .halt r st1) : st1 = st ∧ 400 ≤ r.status := by
  cases m <;>
    first
      | exact absurd hm (by decide)
      | (simp only [step, middlewares.GroupObject, middlewares.GroupRequestBody,
           middlewares.UserRequestBody, middlewares.AllowIfGroupIsNotFull,
           middlewares.AllowIfUserIsNotMember, middlewares.AllowIfUserIsNotOwner,
           middlewares.AllowIfUserIsOwner, middlewares.AllowIfUserIsMember,
           middlewares.AllowIfCorrectGroupPassword,
           middlewares.AllowIfGroupIsOpen] at h
         (repeat' split at h) <;>
           first
             | (injection h with h1 h2; subst h1; subst h2; exact ⟨rfl, by decide⟩)
             | simp at h)

/-- A middleware that passes only writes context keys: the database part
of the state — rows and failure oracles alike — is unchanged. -/
lemma step_mw_go {m : Mw} (hm : m.isHandler = false) {st st1 : St}
    (h : step m st = .go st1) :
    st1.dbGroup = st.dbGroup ∧ st1.dbUsers = st.dbUsers ∧
    st1.dbInitFail = st.dbInitFail ∧ st1.retrieveGroupFail = st.retrieveGroupFail := by
  cases m <;>
    first
      | exact absurd hm (by decide)
      | (simp only [step, middlewares.GroupObject, middlewares.GroupRequestBody,
           middlewares.UserRequestBody, middlewares.AllowIfGroupIsNotFull,
           middlewares.AllowIfUserIsNotMember, middlewares.AllowIfUserIsNotOwner,
           middlewares.AllowIfUserIsOwner, middlewares.AllowIfUserIsMember,
           middlewares.AllowIfCorrectGroupPassword,
           middlewares.AllowIfGroupIsOpen] at h
         (repeat' split at h) <;>
           first
             | (injection h with h1; subst h1; exact ⟨rfl, rfl, rfl, rfl⟩)
             | simp at h)

/-- A middleware that hits a `Fatal*` logging call exits with the request
state untouched (the failed database call wrote nothing). -/
lemma step_mw_fatal {m : Mw} (hm : m.isHandler = false) {st st1 : St}
    (h : step m st = .fatal st1) : st1 = st := by
  cases m <;>
    first
      | exact absurd hm (by decide)
      | (simp only [step, middlewares.GroupObject, middlewares.GroupRequestBody,
           middlewares.UserRequestBody, middlewares.AllowIfGroupIsNotFull,
           middlewares.AllowIfUserIsNotMember, middlewares.AllowIfUserIsNotOwner,
           middlewares.AllowIfUserIsOwner, middlewares.AllowIfUserIsMember,
           middlewares.AllowIfCorrectGroupPassword,
           middlewares.AllowIfGroupIsOpen] at h
         (repeat' split at h) <;>
           first
             | (injection h with h1; exact h1.symm)
             | simp at h)

/-- Source `GroupObject` is the only registered middleware that makes a
database call, hence the only one that can terminate the process. -/
lemma step_mw_no_fatal {m : Mw} (hm : m.isHandler = false)
    (hg : m ≠ .groupObject) {st st1 : St} :
    step m st ≠ .fatal st1 := by
  cases m <;>
    first
      | exact absurd rfl hg
      | exact absurd hm (by decide)
      | (intro h
         simp only [step, middlewares.GroupRequestBody,
           middlewares.UserRequestBody, middlewares.AllowIfGroupIsNotFull,
           middlewares.AllowIfUserIsNotMember, middlewares.AllowIfUserIsNotOwner,
           middlewares.AllowIfUserIsOwner, middlewares.AllowIfUserIsMember,
           middlewares.AllowIfCorrectGroupPassword,
           middlewares.AllowIfGroupIsOpen] at h
         (repeat' split at h) <;> simp at h)

/-- If the middleware prefix stops the request — with a response or by
killing the process — the whole chain does exactly what the prefix did. -/
lemma specRun_append_stop {xs : List Mw} (ys : List Mw) {st : St}
    (h : (specRun xs st).isPass = false) :
    specRun (xs ++ ys) st = specRun xs st := by
  induction xs generalizing st with
  | nil => simp [specRun, RunOut.isPass] at h
  | cons m ms ihm =>
    simp only [List.cons_append, specRun] at h ⊢
    cases hstep : step m st with
    | halt r1 s1 => rfl
    | fatal s1 => rfl
    | go s1 =>
      rw [hstep] at h
      dsimp only at h ⊢
      exact ihm h

/-- If the middleware prefix passes, the whole chain continues from its
final state. -/
lemma specRun_append_pass {xs : List Mw} {ys : List Mw} {st st1 : St}
    (h : specRun xs st = .pass st1) :
    specRun (xs ++ ys) st = specRun ys st1 := by
  induction xs generalizing st with
  | nil =>
    simp only [specRun] at h
    injection h with h1
    rw [List.nil_append, h1]
  | cons m ms ihm =>
    simp only [List.cons_append, specRun] at h ⊢
    cases hstep : step m st with
    | halt r1 s1 =>
      rw [hstep] at h
      dsimp only at h
      exact absurd h (by simp)
    | fatal s1 =>
      rw [hstep] at h
      dsimp only at h
      exact absurd h (by simp)
    | go s1 =>
      rw [hstep] at h
      dsimp only at h ⊢
      exact ihm h

/-- A halt produced by a list of middlewares is an HTTP error and does not
touch the database part of the state. -/
lemma specRun_mws_halt {xs : List Mw} (hxs : xs.all (fun m => !m.isHandler) = true)
    {st st1 : St} {r : Resp} (h : specRun xs st = .resp r st1) :
    400 ≤ r.status ∧ st1.dbGroup = st.dbGroup ∧ st1.dbUsers = st.dbUsers := by
  induction xs generalizing st with
  | nil => simp [specRun] at h
  | cons m ms ihm =>
    simp only [List.all_cons, Bool.and_eq_true, Bool.not_eq_eq_eq_not, Bool.not_true] at hxs
    simp only [specRun] at h
    cases hstep : step m st with
    | halt r1 s1 =>
      rw [hstep] at h
      dsimp only at h
      injection h with h1 h2
      subst h1
      subst h2
      obtain ⟨he, hs⟩ := step_mw_halt hxs.1 hstep
      exact ⟨hs, by rw [he], by rw [he]⟩
    | fatal s1 =>
      rw [hstep] at h
      dsimp only at h
      exact absurd h (by simp)
    | go s1 =>
      rw [hstep] at h
      dsimp only at h
      obtain ⟨h1, h2, _, _⟩ := step_mw_go hxs.1 hstep
      obtain ⟨g1, g2, g3⟩ := ihm hxs.2 h
      exact ⟨g1, by rw [g2, h1], by rw [g3, h2]⟩

/-- A process exit during a list of middlewares leaves the database part
of the state untouched: the failing call came before any write. -/
lemma specRun_mws_fatal {xs : List Mw} (hxs : xs.all (fun m => !m.isHandler) = true)
    {st st1 : St} (h : specRun xs st = .fatal st1) :
    st1.dbGroup = st.dbGroup ∧ st1.dbUsers = st.dbUsers := by
  induction xs generalizing st with
  | nil => simp [specRun] at h
  | cons m ms ihm =>
    simp only [List.all_cons, Bool.and_eq_true, Bool.not_eq_eq_eq_not, Bool.not_true] at hxs
    simp only [specRun] at h
    cases hstep : step m st with
    | halt r1 s1 =>
      rw [hstep] at h
      dsimp only at h
      exact absurd h (by simp)
    | fatal s1 =>
      rw [hstep] at h
      dsimp only at h
      injection h with h1
      subst h1
      have he := step_mw_fatal hxs.1 hstep
      exact ⟨by rw [he], by rw [he]⟩
    | go s1 =>
      rw [hstep] at h
      dsimp only at h
      obtain ⟨h1, h2, _, _⟩ := step_mw_go hxs.1 hstep
      obtain ⟨g1, g2⟩ := ihm hxs.2 h
      exact ⟨by rw [g1, h1], by rw [g2, h2]⟩

/-- Source `wrap16` is the identity on the `int16` range. -/
lemma wrap16_eq_self {n : Int} (h1 : -32768 ≤ n) (h2 : n ≤ 32767) :
    wrap16 n = n := by
  unfold wrap16
  rw [Int.emod_eq_of_lt (by omega) (by omega)]
  omega

/-- C8: the authentication middleware is not total over the
`Authorization` header.  On the header value `"token123"` — non-empty and
containing no space — `strings.Split(ah, " ")` yields the one-element
slice `["token123"]`, and the unconditional index `[1]` in
`AuthenticateRequests` is out of bounds: the handler panics instead of
aborting with an HTTP error or continuing.  (The claim asserts the
middleware always aborts or continues; this run refutes it and exhibits
the code bug.) -/
theorem c8_auth_split_panics :
    middlewares.goSplitSpace "token123" = ["token123"] ∧
    (middlewares.goSplitSpace "token123").length = 1 ∧
    middlewares.AuthenticateRequests "token123"
      (.valid (some 1)) = .panicked ∧
    ("token123" : String) ≠ "" ∧
    middlewares.AuthenticateRequests "Bearer token123"
      (.valid (some 1)) = .setUser 1 := by decide

/-- C6, counterexample: the claim says the capacity check rejects exactly
when the member count is greater than or equal to `MaxSize - 1`.  For the
overfull group (five members, capacity five) the count 5 is at least
`MaxSize - 1 = 4`, yet `AllowIfGroupIsNotFull` passes the request on,
because `IsFull` tests exact equality `MaxSize-1 == int16(len(Members))`. -/
theorem c6_counterexample :
    overfullGroup.MaxSize - 1 ≤ (overfullGroup.Members.length : Int) ∧
    middlewares.AllowIfGroupIsNotFull c6St = .go c6St := by decide

/-- C6, amended: the capacity check rejects with 400 `"Group is full"`
exactly when `IsFull` holds, i.e. when the member count equals
`MaxSize - 1` exactly (computed at `int16` precision; the stated range
hypotheses make the `int16` wrap the identity); when `IsFull` is false the
request is passed on — in particular a group already beyond `MaxSize - 1`
members is admitted. -/
theorem c6_amended_capacity_check (st : St) (g : Group)
    (h : st.keyObj = some g) (hr1 : 0 ≤ g.MaxSize) (hr2 : g.MaxSize ≤ 32767)
    (hr3 : g.Members.length ≤ 32766) :
    (middlewares.AllowIfGroupIsNotFull st = .halt groupFullResp st ↔
      g.IsFull = true) ∧
    (g.IsFull = true ↔ (g.Members.length : Int) = g.MaxSize - 1) ∧
    (g.IsFull = false → middlewares.AllowIfGroupIsNotFull st = .go st) := by
  have hiff : g.IsFull = true ↔ (g.Members.length : Int) = g.MaxSize - 1 := by
    unfold Group.IsFull
    rw [wrap16_eq_self (n := g.MaxSize - 1) (by omega) (by omega),
      wrap16_eq_self (n := (g.Members.length : Int)) (by omega) (by omega),
      beq_iff_eq]
    omega
  refine ⟨?_, hiff, ?_⟩
  · by_cases hf : g.IsFull = true <;>
      simp [middlewares.AllowIfGroupIsNotFull, h, hf, groupFullResp]
  · intro hf
    simp [middlewares.AllowIfGroupIsNotFull, h, hf]

/-- C6, witness for the amended theorem, at a group with three of four
slots taken: the check does not reject it. -/
theorem c6_amended_capacity_check_witness :
    (middlewares.AllowIfGroupIsNotFull c6wSt = .halt groupFullResp c6wSt ↔
      openGroup3.IsFull = true) ∧
    middlewares.AllowIfGroupIsNotFull c6wSt = .go c6wSt :=
  ⟨(c6_amended_capacity_check c6wSt openGroup3 (by decide) (by decide)
      (by decide) (by decide)).1,
   (c6_amended_capacity_check c6wSt openGroup3 (by decide) (by decide)
      (by decide) (by decide)).2.2 (by decide)⟩



/-- C7: password presence marks a group private.  With the loaded group in
the context: when the stored password is empty, the check passes every
request on without touching the body; when it is non-empty, a missing body
(EOF) gives 400 `"Group password is required"`, another binding failure
gives 500, and a bound body passes if and only if its password equals the
stored one, a mismatch giving 403 `"Incorrect password"`. -/
theorem c7_password_check (st : St) (g : Group) (h : st.keyObj = some g) :
    (g.Password = "" → middlewares.AllowIfCorrectGroupPassword st = .go st) ∧
    (g.Password ≠ "" →
      (st.gBody = .eof →
        middlewares.AllowIfCorrectGroupPassword st =
          .halt { status := 400, body := .err "Group password is required" [] } st) ∧
      (st.gBody = .err →
        middlewares.AllowIfCorrectGroupPassword st = .halt internalErrorResp st) ∧
      (∀ req, st.gBody = .ok req →
        (middlewares.AllowIfCorrectGroupPassword st = .go st ↔
          req.Password = g.Password) ∧
        (req.Password ≠ g.Password →
          middlewares.AllowIfCorrectGroupPassword st =
            .halt { status := 403, body := .err "Incorrect password" [] } st))) := by
  constructor
  · intro hp
    have hpriv : g.IsPrivate = false := by simp [Group.IsPrivate, hp]
    simp [middlewares.AllowIfCorrectGroupPassword, h, hpriv]
  · intro hp
    have hpriv : g.IsPrivate = true := by simp [Group.IsPrivate, hp]
    refine ⟨?_, ?_, ?_⟩
    · intro hb; simp [middlewares.AllowIfCorrectGroupPassword, h, hpriv, hb]
    · intro hb; simp [middlewares.AllowIfCorrectGroupPassword, h, hpriv, hb]
    · intro req hb
      by_cases hpw : req.Password = g.Password
      · have hv : g.ValidatePassword g.Password = none := by
          simp [Group.ValidatePassword]
        simp [middlewares.AllowIfCorrectGroupPassword, h, hpriv, hb, hv, hpw]
      · have hv : g.ValidatePassword req.Password =
            some "incorrect group password" := by
          simp [Group.ValidatePassword]
          intro hc
          exact absurd hc.symm hpw
        simp [middlewares.AllowIfCorrectGroupPassword, h, hpriv, hb, hv, hpw]

/-- C7, witness: joining the private group with the correct password
passes the check, and the empty-password group passes without a body. -/
theorem c7_password_check_witness :
    middlewares.AllowIfCorrectGroupPassword c7wSt = .go c7wSt ∧
    middlewares.AllowIfCorrectGroupPassword c6wSt = .go c6wSt :=
  ⟨((c7_password_check c7wSt privateGroup (by decide)).2 (by decide)).2.2
      ({ zeroGroup with Password := "hunter2" }) (by decide) |>.1.mpr (by decide),
   (c7_password_check c6wSt openGroup3 (by decide)).1 (by decide)⟩

/-- C9: UpdateGroup is a frame on everything except title, description
and max size: the merged group keeps the stored status, owner, members,
id and password; a zero-valued request field keeps the stored value, so
no update can make the title or description empty or the max size zero;
and the handler saves exactly the merged group, blanking only the
response copy of the password. -/
theorem c9_update_frame (req g : Group) (st : St) (h1 : st.keyObj = some g)
    (h2 : st.keyReqG = some req) (h3 : st.saveGroupFail = false) :
    (endpoints.updateGroupFields req g).Status = g.Status ∧
    (endpoints.updateGroupFields req g).OwnerID = g.OwnerID ∧
    (endpoints.updateGroupFields req g).Members = g.Members ∧
    (endpoints.updateGroupFields req g).Password = g.Password ∧
    (endpoints.updateGroupFields req g).ID = g.ID ∧
    (req.Title = "" → (endpoints.updateGroupFields req g).Title = g.Title) ∧
    (req.Description = "" →
      (endpoints.updateGroupFields req g).Description = g.Description) ∧
    (req.MaxSize = 0 → (endpoints.updateGroupFields req g).MaxSize = g.MaxSize) ∧
    (g.Title ≠ "" → (endpoints.updateGroupFields req g).Title ≠ "") ∧
    (g.Description ≠ "" → (endpoints.updateGroupFields req g).Description ≠ "") ∧
    (g.MaxSize ≠ 0 → (endpoints.updateGroupFields req g).MaxSize ≠ 0) ∧
    endpoints.UpdateGroup st =
      .halt { status := 200,
              body := .group { endpoints.updateGroupFields req g with Password := "" } }
        { st with dbGroup := some (endpoints.updateGroupFields req g) } := by
  unfold endpoints.UpdateGroup endpoints.updateGroupFields
  rw [h1, h2]
  by_cases ht : req.Title = "" <;> by_cases hd : req.Description = "" <;>
    by_cases hm : req.MaxSize = 0 <;>
    simp_all [h3]

/-- C9, witness: a title-only update of the four-member group. -/
theorem c9_update_frame_witness :
    (endpoints.updateGroupFields titleOnlyReq openGroup4).Status = openGroup4.Status ∧
    (endpoints.updateGroupFields titleOnlyReq openGroup4).Members = openGroup4.Members ∧
    endpoints.UpdateGroup c9wSt =
      .halt { status := 200,
              body := .group { endpoints.updateGroupFields titleOnlyReq openGroup4 with
                                 Password := "" } }
        { c9wSt with dbGroup := some (endpoints.updateGroupFields titleOnlyReq openGroup4) } :=
  ⟨(c9_update_frame titleOnlyReq openGroup4 c9wSt (by decide) (by decide) (by decide)).1,
   (c9_update_frame titleOnlyReq openGroup4 c9wSt (by decide) (by decide) (by decide)).2.2.1,
   (c9_update_frame titleOnlyReq openGroup4 c9wSt (by decide) (by decide) (by decide)).2.2.2.2.2.2.2.2.2.2.2⟩


/-- Effect of one create request: either nothing changes, or the validated
request is stored with the requester as owner — including any members and
status it carried. -/
lemma exec_create (req : Group) (uid : Int) (s : Sys) :
    Op.exec (.createOp req uid) s = s ∨
    (req.ValidateForCreate = none ∧
      Op.exec (.createOp req uid) s =
        { dbGroup := some { req with OwnerID := uid }, dbUsers := s.dbUsers }) := by
  obtain ⟨db, users⟩ := s
  unfold Op.exec Op.chain Op.mkSt
  dsimp only
  cases hv : req.ValidateForCreate with
  | some verr =>
    left
    simp [createChain, specRun, RunOut.st, step, middlewares.GroupRequestBody,
      endpoints.CreateGroup, hv]
  | none =>
    right
    refine ⟨rfl, ?_⟩
    simp [createChain, specRun, RunOut.st, step, middlewares.GroupRequestBody,
      endpoints.CreateGroup, hv]

/-- Effect of one join request: either nothing changes, or the addressed
group was not reported full and gains the requester as one more member. -/
lemma exec_join (uid : Int) (body : GBind) (s : Sys) :
    Op.exec (.joinOp uid body) s = s ∨
    (∃ g, s.dbGroup = some g ∧ g.IsFull = false ∧
      Op.exec (.joinOp uid body) s =
        { dbGroup := some { g with Members := g.Members ++ [{ zeroUser with ID := uid }] },
          dbUsers := s.dbUsers }) := by
  obtain ⟨db, users⟩ := s
  unfold Op.exec Op.chain Op.mkSt
  dsimp only
  cases db with
  | none =>
    left
    simp [joinChain, specRun, RunOut.st, step, middlewares.GroupObject]
  | some g =>
    by_cases hfull : g.IsFull = true
    · left
      simp [joinChain, specRun, RunOut.st, step, middlewares.GroupObject,
        middlewares.AllowIfGroupIsNotFull, hfull]
    · by_cases hmem : g.IsMember uid = true
      · left
        simp [joinChain, specRun, RunOut.st, step, middlewares.GroupObject,
          middlewares.AllowIfGroupIsNotFull, middlewares.AllowIfUserIsNotMember,
          hfull, hmem]
      · by_cases howner : g.IsOwner uid = true
        · left
          simp [joinChain, specRun, RunOut.st, step, middlewares.GroupObject,
            middlewares.AllowIfGroupIsNotFull, middlewares.AllowIfUserIsNotMember,
            middlewares.AllowIfUserIsNotOwner, hfull, hmem, howner]
        · by_cases hopen : g.IsOpen = true
          · by_cases hpriv : g.IsPrivate = true
            · cases body with
              | eof =>
                left
                simp [joinChain, specRun, RunOut.st, step, middlewares.GroupObject,
                  middlewares.AllowIfGroupIsNotFull, middlewares.AllowIfUserIsNotMember,
                  middlewares.AllowIfUserIsNotOwner, middlewares.AllowIfGroupIsOpen,
                  middlewares.AllowIfCorrectGroupPassword, hfull, hmem, howner,
                  hopen, hpriv]
              | err =>
                left
                simp [joinChain, specRun, RunOut.st, step, middlewares.GroupObject,
                  middlewares.AllowIfGroupIsNotFull, middlewares.AllowIfUserIsNotMember,
                  middlewares.AllowIfUserIsNotOwner, middlewares.AllowIfGroupIsOpen,
                  middlewares.AllowIfCorrectGroupPassword, hfull, hmem, howner,
                  hopen, hpriv]
              | ok req =>
                cases hval : g.ValidatePassword req.Password with
                | some e =>
                  left
                  simp [joinChain, specRun, RunOut.st, step, middlewares.GroupObject,
                    middlewares.AllowIfGroupIsNotFull, middlewares.AllowIfUserIsNotMember,
                    middlewares.AllowIfUserIsNotOwner, middlewares.AllowIfGroupIsOpen,
                    middlewares.AllowIfCorrectGroupPassword, endpoints.JoinGroup,
                    hfull, hmem, howner, hopen, hpriv, hval]
                | none =>
                  right
                  refine ⟨g, rfl, by simpa using hfull, ?_⟩
                  simp [joinChain, specRun, RunOut.st, step, middlewares.GroupObject,
                    middlewares.AllowIfGroupIsNotFull, middlewares.AllowIfUserIsNotMember,
                    middlewares.AllowIfUserIsNotOwner, middlewares.AllowIfGroupIsOpen,
                    middlewares.AllowIfCorrectGroupPassword, endpoints.JoinGroup,
                    hfull, hmem, howner, hopen, hpriv, hval]
            · right
              refine ⟨g, rfl, by simpa using hfull, ?_⟩
              simp [joinChain, specRun, RunOut.st, step, middlewares.GroupObject,
                middlewares.AllowIfGroupIsNotFull, middlewares.AllowIfUserIsNotMember,
                middlewares.AllowIfUserIsNotOwner, middlewares.AllowIfGroupIsOpen,
                middlewares.AllowIfCorrectGroupPassword, endpoints.JoinGroup,
                hfull, hmem, howner, hopen, hpriv]
          · left
            simp [joinChain, specRun, RunOut.st, step, middlewares.GroupObject,
              middlewares.AllowIfGroupIsNotFull, middlewares.AllowIfUserIsNotMember,
              middlewares.AllowIfUserIsNotOwner, middlewares.AllowIfGroupIsOpen,
              hfull, hmem, howner, hopen]

/-- Effect of one leave request: either nothing changes, or the requester
is filtered out of the addressed group's members. -/
lemma exec_leave (uid : Int) (s : Sys) :
    Op.exec (.leaveOp uid) s = s ∨
    (∃ g, s.dbGroup = some g ∧
      Op.exec (.leaveOp uid) s =
        { dbGroup := some { g with Members := g.Members.filter (fun m => m.ID != uid) },
          dbUsers := s.dbUsers }) := by
  obtain ⟨db, users⟩ := s
  unfold Op.exec Op.chain Op.mkSt
  dsimp only
  cases db with
  | none =>
    left
    simp [leaveChain, specRun, RunOut.st, step, middlewares.GroupObject]
  | some g =>
    by_cases hopen : g.IsOpen = true
    · by_cases hmem : g.IsMember uid = true
      · cases hfind : users.find? (fun x => x.ID == uid) with
        | none =>
          left
          simp [leaveChain, specRun, RunOut.st, step, middlewares.GroupObject,
            middlewares.AllowIfGroupIsOpen, middlewares.AllowIfUserIsMember,
            endpoints.LeaveGroup, hopen, hmem, hfind]
        | some u0 =>
          right
          refine ⟨g, rfl, ?_⟩
          simp [leaveChain, specRun, RunOut.st, step, middlewares.GroupObject,
            middlewares.AllowIfGroupIsOpen, middlewares.AllowIfUserIsMember,
            endpoints.LeaveGroup, hopen, hmem, hfind]
      · left
        simp [leaveChain, specRun, RunOut.st, step, middlewares.GroupObject,
          middlewares.AllowIfGroupIsOpen, middlewares.AllowIfUserIsMember,
          hopen, hmem]
    · left
      simp [leaveChain, specRun, RunOut.st, step, middlewares.GroupObject,
        middlewares.AllowIfGroupIsOpen, hopen]

/-- Effect of one kick request: either nothing changes, or the user named
in the request body is filtered out of the addressed group's members. -/
lemma exec_kick (uid : Int) (body : UBind) (s : Sys) :
    Op.exec (.kickOp uid body) s = s ∨
    (∃ g req, body = .ok req ∧ s.dbGroup = some g ∧
      Op.exec (.kickOp uid body) s =
        { dbGroup := some { g with Members := g.Members.filter (fun m => m.ID != req.ID) },
          dbUsers := s.dbUsers }) := by
  obtain ⟨db, users⟩ := s
  unfold Op.exec Op.chain Op.mkSt
  dsimp only
  cases body with
  | eof => left; simp [kickChain, specRun, RunOut.st, step, middlewares.UserRequestBody]
  | err => left; simp [kickChain, specRun, RunOut.st, step, middlewares.UserRequestBody]
  | ok req =>
    cases db with
    | none =>
      left
      simp [kickChain, specRun, RunOut.st, step, middlewares.UserRequestBody,
        middlewares.GroupObject]
    | some g =>
      by_cases hopen : g.IsOpen = true
      · by_cases howner : g.IsOwner uid = true
        · cases hfind : users.find? (fun x => x.ID == req.ID) with
          | none =>
            left
            simp [kickChain, specRun, RunOut.st, step, middlewares.UserRequestBody,
              middlewares.GroupObject, middlewares.AllowIfGroupIsOpen,
              middlewares.AllowIfUserIsOwner, endpoints.KickFromGroup,
              hopen, howner, hfind]
          | some u0 =>
            by_cases hmem : g.IsMember req.ID = true
            · right
              refine ⟨g, req, rfl, rfl, ?_⟩
              simp [kickChain, specRun, RunOut.st, step, middlewares.UserRequestBody,
                middlewares.GroupObject, middlewares.AllowIfGroupIsOpen,
                middlewares.AllowIfUserIsOwner, endpoints.KickFromGroup,
                hopen, howner, hfind, hmem]
            · left
              simp [kickChain, specRun, RunOut.st, step, middlewares.UserRequestBody,
                middlewares.GroupObject, middlewares.AllowIfGroupIsOpen,
                middlewares.AllowIfUserIsOwner, endpoints.KickFromGroup,
                hopen, howner, hfind, hmem]
        · left
          simp [kickChain, specRun, RunOut.st, step, middlewares.UserRequestBody,
            middlewares.GroupObject, middlewares.AllowIfGroupIsOpen,
            middlewares.AllowIfUserIsOwner, hopen, howner]
      · left
        simp [kickChain, specRun, RunOut.st, step, middlewares.UserRequestBody,
          middlewares.GroupObject, middlewares.AllowIfGroupIsOpen, hopen]

/-- Effect of one update request: either nothing changes, or the addressed
group is replaced by the field merge of `UpdateGroup`. -/
lemma exec_update (req : Group) (uid : Int) (s : Sys) :
    Op.exec (.updateOp req uid) s = s ∨
    (∃ g, s.dbGroup = some g ∧
      Op.exec (.updateOp req uid) s =
        { dbGroup := some (endpoints.updateGroupFields req g),
          dbUsers := s.dbUsers }) := by
  obtain ⟨db, users⟩ := s
  unfold Op.exec Op.chain Op.mkSt
  dsimp only
  cases db with
  | none =>
    left
    simp [updateChain, specRun, RunOut.st, step, middlewares.GroupObject]
  | some g =>
    by_cases howner : g.IsOwner uid = true
    · by_cases hopen : g.IsOpen = true
      · right
        refine ⟨g, rfl, ?_⟩
        simp [updateChain, specRun, RunOut.st, step, middlewares.GroupObject,
          middlewares.AllowIfUserIsOwner, middlewares.AllowIfGroupIsOpen,
          middlewares.GroupRequestBody, endpoints.UpdateGroup, howner, hopen]
      · left
        simp [updateChain, specRun, RunOut.st, step, middlewares.GroupObject,
          middlewares.AllowIfUserIsOwner, middlewares.AllowIfGroupIsOpen,
          howner, hopen]
    · left
      simp [updateChain, specRun, RunOut.st, step, middlewares.GroupObject,
        middlewares.AllowIfUserIsOwner, howner]

/-- Effect of one update-password request: either nothing changes, or the
addressed group's password is replaced. -/
lemma exec_updatePassword (req : Group) (uid : Int) (s : Sys) :
    Op.exec (.updatePasswordOp req uid) s = s ∨
    (∃ g, s.dbGroup = some g ∧
      Op.exec (.updatePasswordOp req uid) s =
        { dbGroup := some { g with Password := req.Password },
          dbUsers := s.dbUsers }) := by
  obtain ⟨db, users⟩ := s
  unfold Op.exec Op.chain Op.mkSt
  dsimp only
  cases db with
  | none =>
    left
    simp [updatePasswordChain, specRun, RunOut.st, step, middlewares.GroupObject]
  | some g =>
    by_cases howner : g.IsOwner uid = true
    · by_cases hopen : g.IsOpen = true
      · right
        refine ⟨g, rfl, ?_⟩
        simp [updatePasswordChain, specRun, RunOut.st, step, middlewares.GroupObject,
          middlewares.AllowIfUserIsOwner, middlewares.AllowIfGroupIsOpen,
          middlewares.GroupRequestBody, endpoints.UpdateGroupPassword, howner, hopen]
      · left
        simp [updatePasswordChain, specRun, RunOut.st, step, middlewares.GroupObject,
          middlewares.AllowIfUserIsOwner, middlewares.AllowIfGroupIsOpen,
          howner, hopen]
    · left
      simp [updatePasswordChain, specRun, RunOut.st, step, middlewares.GroupObject,
        middlewares.AllowIfUserIsOwner, howner]

/-- Effect of one close request: either nothing changes, or the addressed
group's status becomes `-100`. -/
lemma exec_close (uid : Int) (s : Sys) :
    Op.exec (.closeOp uid) s = s ∨
    (∃ g, s.dbGroup = some g ∧
      Op.exec (.closeOp uid) s =
        { dbGroup := some { g with Status := -100 }, dbUsers := s.dbUsers }) := by
  obtain ⟨db, users⟩ := s
  unfold Op.exec Op.chain Op.mkSt
  dsimp only
  cases db with
  | none =>
    left
    simp [closeChain, specRun, RunOut.st, step, middlewares.GroupObject]
  | some g =>
    by_cases howner : g.IsOwner uid = true
    · by_cases hopen : g.IsOpen = true
      · right
        refine ⟨g, rfl, ?_⟩
        simp [closeChain, specRun, RunOut.st, step, middlewares.GroupObject,
          middlewares.AllowIfUserIsOwner, middlewares.AllowIfGroupIsOpen,
          endpoints.CloseGroup, howner, hopen]
      · left
        simp [closeChain, specRun, RunOut.st, step, middlewares.GroupObject,
          middlewares.AllowIfUserIsOwner, middlewares.AllowIfGroupIsOpen,
          howner, hopen]
    · left
      simp [closeChain, specRun, RunOut.st, step, middlewares.GroupObject,
        middlewares.AllowIfUserIsOwner, howner]


/-- The field merge of `UpdateGroup` never touches the member list. -/
lemma updateGroupFields_Members (req g : Group) :
    (endpoints.updateGroupFields req g).Members = g.Members := by
  unfold endpoints.updateGroupFields
  repeat' split
  all_goals rfl

/-- The field merge of `UpdateGroup` never touches the status. -/
lemma updateGroupFields_Status (req g : Group) :
    (endpoints.updateGroupFields req g).Status = g.Status := by
  unfold endpoints.updateGroupFields
  repeat' split
  all_goals rfl

/-- A request with zero max size leaves the stored max size unchanged. -/
lemma updateGroupFields_MaxSize_zero (req g : Group) (h : req.MaxSize = 0) :
    (endpoints.updateGroupFields req g).MaxSize = g.MaxSize := by
  unfold endpoints.updateGroupFields
  rw [h]
  simp only [bne_self_eq_false, Bool.false_eq_true, if_false]
  repeat' split
  all_goals rfl

/-- A group that passes creation validation has its capacity between 5
and 200. -/
lemma validateForCreate_maxSize {g : Group} (h : g.ValidateForCreate = none) :
    5 ≤ g.MaxSize ∧ g.MaxSize ≤ 200 := by
  by_cases hsz : g.MaxSize < 5 ∨ 200 < g.MaxSize
  · exfalso
    revert h
    unfold Group.ValidateForCreate
    rw [if_pos hsz]
    by_cases ht : g.Title = "" <;> by_cases ht2 : 50 < g.Title.utf8ByteSize <;>
      by_cases hd : g.Description = "" <;>
      by_cases hd2 : 200 < g.Description.utf8ByteSize <;>
      simp [ht, ht2, hd, hd2]
  · constructor <;> omega

/-- A property preserved by every well-formed request holds after every
well-formed trace. -/
lemma execTrace_preserves (P : Sys → Prop) (wf : Op → Bool)
    (hstep : ∀ op, wf op = true → ∀ s, P s → P (op.exec s)) :
    ∀ ops s, (∀ op ∈ ops, wf op = true) → P s → P (execTrace ops s) := by
  intro ops
  induction ops with
  | nil => intro s _ hp; exact hp
  | cons op rest iho =>
    intro s h hp
    exact iho (op.exec s) (fun o ho => h o (List.mem_cons_of_mem _ ho))
      (hstep op (h op (List.mem_cons_self _ _)) s hp)

/-- One well-formed request preserves the capacity invariant. -/
lemma wfC1_exec_InvSys (op : Op) (hop : wfC1 op = true) (s : Sys)
    (hs : InvSys s) : InvSys (op.exec s) := by
  cases op with
  | createOp req uid =>
    rcases exec_create req uid s with h | ⟨hv, h⟩
    · rw [h]; exact hs
    · rw [h]
      intro g1 hg1
      simp only [Option.some.injEq] at hg1
      subst hg1
      obtain ⟨h5, h200⟩ := validateForCreate_maxSize hv
      have hm : req.Members = [] := by
        simpa [wfC1, List.isEmpty_iff] using hop
      refine ⟨?_, by simpa using h5, by simpa using h200⟩
      simp [hm]
      omega
  | joinOp uid body =>
    rcases exec_join uid body s with h | ⟨g, hdb, hfull, h⟩
    · rw [h]; exact hs
    · rw [h]
      intro g1 hg1
      simp only [Option.some.injEq] at hg1
      subst hg1
      obtain ⟨hlen, h5, h200⟩ := hs g hdb
      have hne : (g.Members.length : Int) ≠ g.MaxSize - 1 := by
        intro hEq
        have hf : g.IsFull = true := by
          unfold Group.IsFull
          rw [wrap16_eq_self (by omega) (by omega),
            wrap16_eq_self (by omega) (by omega)]
          exact beq_iff_eq.mpr (by omega)
        rw [hf] at hfull
        exact absurd hfull (by simp)
      refine ⟨?_, by simpa using h5, by simpa using h200⟩
      simp only [List.length_append, List.length_singleton]
      push_cast
      omega
  | leaveOp uid =>
    rcases exec_leave uid s with h | ⟨g, hdb, h⟩
    · rw [h]; exact hs
    · rw [h]
      intro g1 hg1
      simp only [Option.some.injEq] at hg1
      subst hg1
      obtain ⟨hlen, h5, h200⟩ := hs g hdb
      refine ⟨?_, by simpa using h5, by simpa using h200⟩
      have hfl : (g.Members.filter (fun m => m.ID != uid)).length ≤
          g.Members.length := List.length_filter_le _ _
      dsimp only
      omega
  | kickOp uid body =>
    rcases exec_kick uid body s with h | ⟨g, req, _, hdb, h⟩
    · rw [h]; exact hs
    · rw [h]
      intro g1 hg1
      simp only [Option.some.injEq] at hg1
      subst hg1
      obtain ⟨hlen, h5, h200⟩ := hs g hdb
      refine ⟨?_, by simpa using h5, by simpa using h200⟩
      have hfl : (g.Members.filter (fun m => m.ID != req.ID)).length ≤
          g.Members.length := List.length_filter_le _ _
      dsimp only
      omega
  | updateOp req uid =>
    have hm0 : req.MaxSize = 0 := by simpa [wfC1] using hop
    rcases exec_update req uid s with h | ⟨g, hdb, h⟩
    · rw [h]; exact hs
    · rw [h]
      intro g1 hg1
      simp only [Option.some.injEq] at hg1
      subst hg1
      obtain ⟨hlen, h5, h200⟩ := hs g hdb
      rw [InvG, updateGroupFields_Members, updateGroupFields_MaxSize_zero req g hm0]
      exact ⟨hlen, h5, h200⟩
  | updatePasswordOp req uid =>
    rcases exec_updatePassword req uid s with h | ⟨g, hdb, h⟩
    · rw [h]; exact hs
    · rw [h]
      intro g1 hg1
      simp only [Option.some.injEq] at hg1
      subst hg1
      obtain ⟨hlen, h5, h200⟩ := hs g hdb
      exact ⟨by simpa using hlen, by simpa using h5, by simpa using h200⟩
  | closeOp uid =>
    rcases exec_close uid s with h | ⟨g, hdb, h⟩
    · rw [h]; exact hs
    · rw [h]
      intro g1 hg1
      simp only [Option.some.injEq] at hg1
      subst hg1
      obtain ⟨hlen, h5, h200⟩ := hs g hdb
      exact ⟨by simpa using hlen, by simpa using h5, by simpa using h200⟩

/-- One status-well-formed request preserves the status invariant. -/
lemma wfC5_exec_Inv5 (op : Op) (hop : wfC5 op = true) (s : Sys)
    (hs : Inv5 s) : Inv5 (op.exec s) := by
  cases op with
  | createOp req uid =>
    have h0 : req.Status = 0 := by simpa [wfC5] using hop
    rcases exec_create req uid s with h | ⟨_, h⟩
    · rw [h]; exact hs
    · rw [h]
      intro g1 hg1
      simp only [Option.some.injEq] at hg1
      subst hg1
      left
      simpa using h0
  | joinOp uid body =>
    rcases exec_join uid body s with h | ⟨g, hdb, _, h⟩
    · rw [h]; exact hs
    · rw [h]
      intro g1 hg1
      simp only [Option.some.injEq] at hg1
      subst hg1
      simpa using hs g hdb
  | leaveOp uid =>
    rcases exec_leave uid s with h | ⟨g, hdb, h⟩
    · rw [h]; exact hs
    · rw [h]
      intro g1 hg1
      simp only [Option.some.injEq] at hg1
      subst hg1
      simpa using hs g hdb
  | kickOp uid body =>
    rcases exec_kick uid body s with h | ⟨g, req, _, hdb, h⟩
    · rw [h]; exact hs
    · rw [h]
      intro g1 hg1
      simp only [Option.some.injEq] at hg1
      subst hg1
      simpa using hs g hdb
  | updateOp req uid =>
    rcases exec_update req uid s with h | ⟨g, hdb, h⟩
    · rw [h]; exact hs
    · rw [h]
      intro g1 hg1
      simp only [Option.some.injEq] at hg1
      subst hg1
      rw [updateGroupFields_Status]
      exact hs g hdb
  | updatePasswordOp req uid =>
    rcases exec_updatePassword req uid s with h | ⟨g, hdb, h⟩
    · rw [h]; exact hs
    · rw [h]
      intro g1 hg1
      simp only [Option.some.injEq] at hg1
      subst hg1
      simpa using hs g hdb
  | closeOp uid =>
    rcases exec_close uid s with h | ⟨g, hdb, h⟩
    · rw [h]; exact hs
    · rw [h]
      intro g1 hg1
      simp only [Option.some.injEq] at hg1
      subst hg1
      right
      rfl


/-- C1, counterexample: the capacity invariant fails on a reachable state,
and a join is admitted beyond capacity.  `CreateGroup` binds the whole
group body, so a valid create request seeding five members yields a stored
capacity-5 group with five members — already above `MaxSize - 1 = 4` — and
the next join request is admitted with HTTP 200 (the equality-only `IsFull`
does not fire), leaving six members in a capacity-5 group. -/
theorem c1_counterexample :
    (execTrace [Op.createOp seededCreateReq 100]
        { dbGroup := none, dbUsers := [] }).dbGroup =
      some { seededCreateReq with OwnerID := 100 } ∧
    ¬ ((({ seededCreateReq with OwnerID := 100 } : Group).Members.length : Int) ≤
      ({ seededCreateReq with OwnerID := 100 } : Group).MaxSize - 1) ∧
    ((Op.resp (.joinOp 6 .eof)
        (execTrace [Op.createOp seededCreateReq 100]
          { dbGroup := none, dbUsers := [] })).getD internalErrorResp).status = 200 ∧
    ((execTrace c1Trace { dbGroup := none, dbUsers := [] }).dbGroup.getD
        zeroGroup).Members.length = 6 ∧
    ((execTrace c1Trace { dbGroup := none, dbUsers := [] }).dbGroup.getD
        zeroGroup).MaxSize = 5 := by decide

/-- C1, amended: for every state reachable by requests that neither seed
members through the create body nor change `max_size` through an update
(`wfC1`), the membership size never exceeds the capacity minus one — in
particular any admitted join leaves at most `MaxSize - 1` members, since
its post-state is again reachable under `wfC1`. -/
theorem c1_amended_capacity_invariant (ops : List Op) (users : List User)
    (hops : ∀ op ∈ ops, wfC1 op = true) (g : Group)
    (hg : (execTrace ops { dbGroup := none, dbUsers := users }).dbGroup = some g) :
    (g.Members.length : Int) ≤ g.MaxSize - 1 := by
  have h := execTrace_preserves InvSys wfC1 wfC1_exec_InvSys ops
    { dbGroup := none, dbUsers := users } hops (fun g1 hg1 => by simp at hg1)
  exact (h g hg).1

/-- C1, witness: after a plain create and one admitted join, the stored
group has one member and capacity five. -/
theorem c1_amended_capacity_invariant_witness :
    (c1WitnessGroup.Members.length : Int) ≤ c1WitnessGroup.MaxSize - 1 :=
  c1_amended_capacity_invariant c1WfTrace [] (by decide) c1WitnessGroup (by decide)

/-- C5, counterexample: a group with a status that is neither open (`0`)
nor closed (`-100`) is reachable.  `CreateGroup` stores the bound `status`
field unvalidated, so a create request with status `7` succeeds with
HTTP 201 and the stored group's status is `7`. -/
theorem c5_counterexample :
    (execTrace [Op.createOp status7Req 100]
        { dbGroup := none, dbUsers := [] }).dbGroup =
      some { status7Req with OwnerID := 100 } ∧
    ({ status7Req with OwnerID := 100 } : Group).Status = 7 ∧
    (7 : Int) ≠ 0 ∧ (7 : Int) ≠ -100 ∧
    ((Op.resp (.createOp status7Req 100)
        { dbGroup := none, dbUsers := [] }).getD internalErrorResp).status = 201 := by
  decide

/-- C5, amended: for every state reachable by requests whose create bodies
carry status `0` (the value an omitted JSON field binds to), the stored
status is always open (`0`) or closed (`-100`): creation stores `0`,
`CloseGroup` is the only handler that writes the status and writes `-100`,
and every other handler preserves it. -/
theorem c5_amended_status_invariant (ops : List Op) (users : List User)
    (hops : ∀ op ∈ ops, wfC5 op = true) (g : Group)
    (hg : (execTrace ops { dbGroup := none, dbUsers := users }).dbGroup = some g) :
    g.Status = 0 ∨ g.Status = -100 := by
  have h := execTrace_preserves Inv5 wfC5 wfC5_exec_Inv5 ops
    { dbGroup := none, dbUsers := users } hops (fun g1 hg1 => by simp at hg1)
  exact h g hg

/-- C5, witness: after a create and a close, the stored status is open or
closed (it is `-100`). -/
theorem c5_amended_status_invariant_witness :
    c5WitnessGroup.Status = 0 ∨ c5WitnessGroup.Status = -100 :=
  c5_amended_status_invariant c5WfTrace [] (by decide) c5WitnessGroup (by decide)


/-- C2, counterexample: the claim says the first failing check aborts the
request with an HTTP error status.  A join request addressed at an absent
group id is a realizable input on which the first check — `GroupObject`'s
group lookup — fails, but no HTTP error is returned: `retrieveGroup` logs
the record-not-found error with `log.Fatalf` and the process exits with
no response (the 404 branch of `GroupObject` is dead code). -/
theorem c2_counterexample :
    stdSt.dbGroup = none ∧
    (specRun joinChain stdSt).isFatal = true ∧
    (ginRun joinChain stdSt).dead = true ∧
    (ginRun joinChain stdSt).resp = none := by
  have h := ginRun_spec joinChain stdSt (by decide) (by decide)
  refine ⟨rfl, by decide, ?_, ?_⟩
  · rw [h.2.2]
    decide
  · rw [h.1]
    decide

/-- C2, amended: for every registered group route, gin's indexed execution
of the chain equals the reference semantics that runs the checks in
registration order and stops at the first failure (this holds even though
`AllowIfGroupIsNotFull` aborts without `return`: its fall-through
`c.Next()` finds the index at gin's `abortIndex` and runs nothing).  The
first failure before the endpoint handler ends the request so that no
later check runs and the handler's database effect does not occur — but
in two different ways: a failing permission or parse check aborts with
its HTTP error response, while a failing database operation (absent group
id, connection failure, retrieve error) terminates the whole process via
the fatal logger with no response at all. -/
theorem c2_pipeline_order :
    ∀ chain ∈ registeredChains, ∀ st : St,
    ((ginRun chain st).resp = (specRun chain st).resp? ∧
     (ginRun chain st).st = (specRun chain st).st ∧
     (ginRun chain st).dead = (specRun chain st).isFatal) ∧
    (∀ r, (specRun chain.dropLast st).resp? = some r →
      (specRun chain st).resp? = some r ∧ 400 ≤ r.status ∧
      (specRun chain st).st.dbGroup = st.dbGroup ∧
      (specRun chain st).st.dbUsers = st.dbUsers) ∧
    ((specRun chain.dropLast st).isFatal = true →
      (specRun chain st).isFatal = true ∧
      (specRun chain st).resp? = none ∧
      (specRun chain st).st.dbGroup = st.dbGroup ∧
      (specRun chain st).st.dbUsers = st.dbUsers) := by
  have hprops : ∀ l ∈ registeredChains,
      l.length ≤ 63 ∧ chainWf l = true ∧ l ≠ [] := by decide
  intro chain hmem st
  obtain ⟨h63, hwf, hne⟩ := hprops chain hmem
  have hsplit : chain.dropLast ++ [chain.getLast hne] = chain :=
    List.dropLast_append_getLast hne
  have hwf2 : chain.dropLast.all (fun m => !m.isHandler) = true := hwf
  refine ⟨ginRun_spec chain st h63 hwf, ?_, ?_⟩
  · intro r hr
    cases hpre : specRun chain.dropLast st with
    | pass s1 =>
      rw [hpre] at hr
      exact absurd hr (by simp [RunOut.resp?])
    | fatal s1 =>
      rw [hpre] at hr
      exact absurd hr (by simp [RunOut.resp?])
    | resp r0 s1 =>
      rw [hpre] at hr
      simp only [RunOut.resp?, Option.some.injEq] at hr
      subst hr
      have hfull : specRun chain st = specRun chain.dropLast st := by
        conv_lhs => rw [← hsplit]
        exact specRun_append_stop _ (by rw [hpre]; rfl)
      obtain ⟨hs, hdb1, hdb2⟩ := specRun_mws_halt hwf2 hpre
      rw [hfull, hpre]
      exact ⟨rfl, hs, hdb1, hdb2⟩
  · intro hf
    cases hpre : specRun chain.dropLast st with
    | pass s1 =>
      rw [hpre] at hf
      exact absurd hf (by simp [RunOut.isFatal])
    | resp r0 s1 =>
      rw [hpre] at hf
      exact absurd hf (by simp [RunOut.isFatal])
    | fatal s1 =>
      have hfull : specRun chain st = specRun chain.dropLast st := by
        conv_lhs => rw [← hsplit]
        exact specRun_append_stop _ (by rw [hpre]; rfl)
      obtain ⟨hdb1, hdb2⟩ := specRun_mws_fatal hwf2 hpre
      rw [hfull, hpre]
      exact ⟨rfl, rfl, hdb1, hdb2⟩

/-- C2, witness for the amended theorem: on the join route addressed at
the full four-member group, gin's run agrees with the reference
semantics, and the first failing check — the capacity check — determines
the response (400, `"Group is full"`) while the database part of the
state is untouched. -/
theorem c2_pipeline_order_witness :
    ((ginRun joinChain c2St).resp = (specRun joinChain c2St).resp? ∧
     (ginRun joinChain c2St).st = (specRun joinChain c2St).st ∧
     (ginRun joinChain c2St).dead = (specRun joinChain c2St).isFatal) ∧
    ((specRun joinChain c2St).resp? = some groupFullResp ∧
     400 ≤ groupFullResp.status ∧
     (specRun joinChain c2St).st.dbGroup = c2St.dbGroup ∧
     (specRun joinChain c2St).st.dbUsers = c2St.dbUsers) :=
  ⟨(c2_pipeline_order joinChain (by decide) c2St).1,
   (c2_pipeline_order joinChain (by decide) c2St).2.1 groupFullResp (by decide)⟩


/-- When `GroupObject` passes, it has stored the database's group record
under the `obj` key; everything else, the failure oracles included, is
unchanged. -/
lemma step_groupObject_go {st st1 : St} (h : step .groupObject st = .go st1) :
    st1.keyObj = st.dbGroup ∧ st1.dbGroup = st.dbGroup ∧
    st1.dbInitFail = st.dbInitFail ∧ st1.retrieveGroupFail = st.retrieveGroupFail := by
  simp only [step, middlewares.GroupObject] at h
  (repeat' split at h) <;>
    first
      | (injection h with h1; subst h1; simp_all)
      | simp at h

/-- Every passing middleware other than `GroupObject` leaves the `obj`
key unchanged. -/
lemma step_mw_keyObj {m : Mw} (hm : m.isHandler = false)
    (hg : m ≠ .groupObject) {st st1 : St} (h : step m st = .go st1) :
    st1.keyObj = st.keyObj := by
  cases m <;>
    first
      | exact absurd rfl hg
      | exact absurd hm (by decide)
      | (simp only [step, middlewares.GroupRequestBody, middlewares.UserRequestBody,
           middlewares.AllowIfGroupIsNotFull, middlewares.AllowIfUserIsNotMember,
           middlewares.AllowIfUserIsNotOwner, middlewares.AllowIfUserIsOwner,
           middlewares.AllowIfUserIsMember, middlewares.AllowIfCorrectGroupPassword,
           middlewares.AllowIfGroupIsOpen] at h
         (repeat' split at h) <;>
           first
             | (injection h with h1; subst h1; rfl)
             | simp at h)

/-- The open-group check only passes when the loaded group is open. -/
lemma step_allowOpen_go {st st1 : St} (h : step .allowOpen st = .go st1) :
    ∃ g, st.keyObj = some g ∧ g.IsOpen = true := by
  cases hko : st.keyObj with
  | none => simp [step, middlewares.AllowIfGroupIsOpen, hko] at h
  | some g =>
    refine ⟨g, rfl, ?_⟩
    by_cases ho : g.IsOpen = true
    · exact ho
    · have ho2 : g.IsOpen = false := by revert ho; cases g.IsOpen <;> simp
      simp [step, middlewares.AllowIfGroupIsOpen, hko, ho2] at h

/-- A middleware list that contains the open-group check never falls
through to the handler on a request addressed at a closed group (starting
from a fresh context, where the `obj` key is either still unset or already
holds that group): it stops with a response or the process dies first. -/
lemma specRun_no_pass_of_closed :
    ∀ (ms : List Mw) (st : St) (g : Group),
    (∀ m ∈ ms, m.isHandler = false) → Mw.allowOpen ∈ ms →
    st.dbGroup = some g → (st.keyObj = none ∨ st.keyObj = some g) →
    g.IsOpen = false →
    (specRun ms st).isPass = false := by
  intro ms
  induction ms with
  | nil => intro st g _ hin; simp at hin
  | cons m rest ih =>
    intro st g hall hin hdb hko hopen
    simp only [specRun]
    cases hstep : step m st with
    | halt r st1 => rfl
    | fatal st1 => rfl
    | go st1 =>
      by_cases hm : m = .allowOpen
      · subst hm
        obtain ⟨g2, hg2, hopen2⟩ := step_allowOpen_go hstep
        rcases hko with hko | hko
        · rw [hko] at hg2
          exact absurd hg2 (by simp)
        · rw [hko] at hg2
          injection hg2 with hg2e
          subst hg2e
          rw [hopen2] at hopen
          exact absurd hopen (by simp)
      · have hmh : m.isHandler = false := hall m (List.mem_cons_self _ _)
        have hrest : Mw.allowOpen ∈ rest := by
          cases List.mem_cons.mp hin with
          | inl h2 => exact absurd h2.symm hm
          | inr h2 => exact h2
        have hdb1 : st1.dbGroup = st.dbGroup := (step_mw_go hmh hstep).1
        by_cases hgo : m = .groupObject
        · subst hgo
          obtain ⟨hko1, hdbeq, _, _⟩ := step_groupObject_go hstep
          exact ih st1 g (fun x hx => hall x (List.mem_cons_of_mem _ hx)) hrest
            (by rw [hdbeq, hdb]) (Or.inr (by rw [hko1, hdb])) hopen
        · have hko1 : st1.keyObj = st.keyObj := step_mw_keyObj hmh hgo hstep
          exact ih st1 g (fun x hx => hall x (List.mem_cons_of_mem _ hx)) hrest
            (by rw [hdb1, hdb]) (by rw [hko1]; exact hko) hopen

/-- When moreover the request's own database calls succeed — the
connection opens and the group retrieve returns the record the request
addresses — a middleware list that contains the open-group check halts
with a response on every request addressed at a closed group. -/
lemma specRun_halts_of_closed :
    ∀ (ms : List Mw) (st : St) (g : Group),
    (∀ m ∈ ms, m.isHandler = false) → Mw.allowOpen ∈ ms →
    st.dbGroup = some g → (st.keyObj = none ∨ st.keyObj = some g) →
    g.IsOpen = false → st.dbInitFail = false → st.retrieveGroupFail = false →
    ((specRun ms st).resp?).isSome = true := by
  intro ms
  induction ms with
  | nil => intro st g _ hin; simp at hin
  | cons m rest ih =>
    intro st g hall hin hdb hko hopen hdbi hrgf
    simp only [specRun]
    cases hstep : step m st with
    | halt r st1 => rfl
    | fatal st1 =>
      exfalso
      have hmh : m.isHandler = false := hall m (List.mem_cons_self _ _)
      by_cases hgo : m = .groupObject
      · subst hgo
        rcases hip : st.idParam with _ | gid <;>
          simp [step, middlewares.GroupObject, hip, hdbi, hrgf, hdb] at hstep
      · exact step_mw_no_fatal hmh hgo hstep
    | go st1 =>
      by_cases hm : m = .allowOpen
      · subst hm
        obtain ⟨g2, hg2, hopen2⟩ := step_allowOpen_go hstep
        rcases hko with hko | hko
        · rw [hko] at hg2
          exact absurd hg2 (by simp)
        · rw [hko] at hg2
          injection hg2 with hg2e
          subst hg2e
          rw [hopen2] at hopen
          exact absurd hopen (by simp)
      · have hmh : m.isHandler = false := hall m (List.mem_cons_self _ _)
        have hrest : Mw.allowOpen ∈ rest := by
          cases List.mem_cons.mp hin with
          | inl h2 => exact absurd h2.symm hm
          | inr h2 => exact h2
        obtain ⟨hdb1, _, hfi, hfr⟩ := step_mw_go hmh hstep
        by_cases hgo : m = .groupObject
        · subst hgo
          obtain ⟨hko1, hdbeq, hfi2, hfr2⟩ := step_groupObject_go hstep
          exact ih st1 g (fun x hx => hall x (List.mem_cons_of_mem _ hx)) hrest
            (by rw [hdbeq, hdb]) (Or.inr (by rw [hko1, hdb])) hopen
            (by rw [hfi2, hdbi]) (by rw [hfr2, hrgf])
        · have hko1 : st1.keyObj = st.keyObj := step_mw_keyObj hmh hgo hstep
          exact ih st1 g (fun x hx => hall x (List.mem_cons_of_mem _ hx)) hrest
            (by rw [hdb1, hdb]) (by rw [hko1]; exact hko) hopen
            (by rw [hfi, hdbi]) (by rw [hfr, hrgf])

/-- C4: the closed status is terminal.  On every route that can modify a
group or its membership (close, update, update-password, join, leave,
kick) a request addressed at a closed group never reaches the endpoint
handler — every one of these chains runs `AllowIfGroupIsOpen` — so
neither the group record nor the user table changes, whatever the
database oracles do, and a closed group can never become open again.
Any response the chain does write is an HTTP error; and whenever the
request's own database calls succeed (the connection opens and the group
retrieve returns the addressed record — on their failure the fatal
logger kills the process before a response exists), the chain aborts
with such an HTTP error response. -/
theorem c4_closed_terminal :
    ∀ chain ∈ [closeChain, updateChain, updatePasswordChain, joinChain,
               leaveChain, kickChain],
    ∀ st : St, ∀ g : Group, st.keyObj = none → st.dbGroup = some g →
    g.IsOpen = false →
    (ginRun chain st).st.dbGroup = st.dbGroup ∧
    (ginRun chain st).st.dbUsers = st.dbUsers ∧
    (∀ r, (ginRun chain st).resp = some r → 400 ≤ r.status) ∧
    (st.dbInitFail = false → st.retrieveGroupFail = false →
      (ginRun chain st).resp.isSome = true ∧
      400 ≤ ((ginRun chain st).resp.getD internalErrorResp).status) := by
  have hprops : ∀ l ∈ [closeChain, updateChain, updatePasswordChain, joinChain,
      leaveChain, kickChain],
      l.length ≤ 63 ∧ chainWf l = true ∧ l ≠ [] ∧ Mw.allowOpen ∈ l.dropLast ∧
      (∀ m ∈ l.dropLast, m.isHandler = false) := by decide
  intro chain hmem st g hko hdb hopen
  obtain ⟨h63, hwf, hne, hmemOpen, hallmw⟩ := hprops chain hmem
  obtain ⟨hresp, hst, _⟩ := ginRun_spec chain st h63 hwf
  have hnp : (specRun chain.dropLast st).isPass = false :=
    specRun_no_pass_of_closed chain.dropLast st g hallmw hmemOpen hdb
      (Or.inl hko) hopen
  have hsplit : chain.dropLast ++ [chain.getLast hne] = chain :=
    List.dropLast_append_getLast hne
  have hfull : specRun chain st = specRun chain.dropLast st := by
    conv_lhs => rw [← hsplit]
    exact specRun_append_stop _ hnp
  have hwf2 : chain.dropLast.all (fun m => !m.isHandler) = true := hwf
  cases hpre : specRun chain.dropLast st with
  | pass s1 =>
    rw [hpre] at hnp
    exact absurd hnp (by simp [RunOut.isPass])
  | resp r0 s1 =>
    obtain ⟨hs400, hdb1, hdb2⟩ := specRun_mws_halt hwf2 hpre
    refine ⟨?_, ?_, ?_, fun _ _ => ⟨?_, ?_⟩⟩
    · rw [hst, hfull, hpre]
      exact hdb1
    · rw [hst, hfull, hpre]
      exact hdb2
    · intro r hr
      rw [hresp, hfull, hpre] at hr
      simp only [RunOut.resp?, Option.some.injEq] at hr
      subst hr
      exact hs400
    · rw [hresp, hfull, hpre]
      rfl
    · rw [hresp, hfull, hpre]
      exact hs400
  | fatal s1 =>
    obtain ⟨hdb1, hdb2⟩ := specRun_mws_fatal hwf2 hpre
    refine ⟨?_, ?_, ?_, fun hdbi hrgf => ?_⟩
    · rw [hst, hfull, hpre]
      exact hdb1
    · rw [hst, hfull, hpre]
      exact hdb2
    · intro r hr
      rw [hresp, hfull, hpre] at hr
      exact absurd hr (by simp [RunOut.resp?])
    · exfalso
      have hsome := specRun_halts_of_closed chain.dropLast st g hallmw hmemOpen hdb
        (Or.inl hko) hopen hdbi hrgf
      rw [hpre] at hsome
      exact absurd hsome (by simp [RunOut.resp?])

/-- C4, witness: a join request addressed at the closed group is rejected
with an error and changes nothing. -/
theorem c4_closed_terminal_witness :
    (ginRun joinChain c4wSt).st.dbGroup = c4wSt.dbGroup ∧
    (ginRun joinChain c4wSt).st.dbUsers = c4wSt.dbUsers ∧
    (ginRun joinChain c4wSt).resp.isSome = true ∧
    400 ≤ ((ginRun joinChain c4wSt).resp.getD internalErrorResp).status :=
  ⟨(c4_closed_terminal joinChain (by decide) c4wSt closedGroup (by decide)
      (by decide) (by decide)).1,
   (c4_closed_terminal joinChain (by decide) c4wSt closedGroup (by decide)
      (by decide) (by decide)).2.1,
   ((c4_closed_terminal joinChain (by decide) c4wSt closedGroup (by decide)
      (by decide) (by decide)).2.2.2 (by decide) (by decide)).1,
   ((c4_closed_terminal joinChain (by decide) c4wSt closedGroup (by decide)
      (by decide) (by decide)).2.2.2 (by decide) (by decide)).2⟩


/-- A successful (2xx) response written by an endpoint handler carries
only groups whose password field is empty. -/
lemma step_handler_clean {m : Mw} (hm : m.isHandler = true) {st st1 : St}
    {r : Resp} (h : step m st = .halt r st1) (h2 : 200 ≤ r.status)
    (h3 : r.status < 300) : ∀ g ∈ respGroups r.body, g.Password = "" := by
  cases m <;>
    first
      | exact absurd hm (of_decide_eq_true rfl)
      | (simp only [step, endpoints.CloseGroup, endpoints.CreateGroup,
           endpoints.JoinGroup, endpoints.KickFromGroup, endpoints.LeaveGroup,
           endpoints.ListGroups, endpoints.RetrieveGroup, endpoints.UpdateGroup,
           endpoints.UpdateGroupPassword, endpoints.SignUp, endpoints.SignIn] at h
         (repeat' split at h) <;>
           (try cases h) <;>
           first
             | exact absurd h3 (of_decide_eq_true rfl)
             | exact absurd h2 (of_decide_eq_true rfl)
             | (intro g hg
                simp only [respGroups, List.mem_singleton, List.mem_map] at hg
                first
                  | (subst hg; rfl)
                  | (obtain ⟨a, ha, hga⟩ := hg
                     subst hga
                     rfl)
                  | simp at hg))

/-- C10: every successful (2xx) response of a registered group route
contains only groups with an empty password field — each handler blanks
the password before `c.JSON`, and the listing query never selects the
password column — so the stored group password never leaves the server in
a response body. -/
theorem c10_password_scrubbed :
    ∀ chain ∈ registeredChains, ∀ st : St, ∀ r : Resp,
    (ginRun chain st).resp = some r → 200 ≤ r.status → r.status < 300 →
    ∀ g ∈ respGroups r.body, g.Password = "" := by
  have hprops : ∀ l ∈ registeredChains,
      l.length ≤ 63 ∧ chainWf l = true ∧ l ≠ [] ∧
      l.getLast?.all Mw.isHandler = true := by decide
  intro chain hmem st r hr h2 h3
  obtain ⟨h63, hwf, hne, hlasth⟩ := hprops chain hmem
  obtain ⟨hresp, _, _⟩ := ginRun_spec chain st h63 hwf
  rw [hresp] at hr
  have hsplit : chain.dropLast ++ [chain.getLast hne] = chain :=
    List.dropLast_append_getLast hne
  have hwf2 : chain.dropLast.all (fun m => !m.isHandler) = true := hwf
  cases hpre : specRun chain.dropLast st with
  | resp r0 s1 =>
    have hfull : specRun chain st = specRun chain.dropLast st := by
      conv_lhs => rw [← hsplit]
      exact specRun_append_stop _ (by rw [hpre]; rfl)
    obtain ⟨hs, _, _⟩ := specRun_mws_halt hwf2 hpre
    rw [hfull, hpre] at hr
    simp only [RunOut.resp?, Option.some.injEq] at hr
    subst hr
    omega
  | fatal s1 =>
    have hfull : specRun chain st = specRun chain.dropLast st := by
      conv_lhs => rw [← hsplit]
      exact specRun_append_stop _ (by rw [hpre]; rfl)
    rw [hfull, hpre] at hr
    exact absurd hr (by simp [RunOut.resp?])
  | pass s1 =>
    have hfull : specRun chain st = specRun [chain.getLast hne] s1 := by
      conv_lhs => rw [← hsplit]
      exact specRun_append_pass hpre
    rw [hfull] at hr
    simp only [specRun] at hr
    cases hstep : step (chain.getLast hne) s1 with
    | halt r1 t1 =>
      rw [hstep] at hr
      dsimp only at hr
      simp only [RunOut.resp?, Option.some.injEq] at hr
      subst hr
      have hh : (chain.getLast hne).isHandler = true := by
        have hgl := List.getLast?_eq_getLast chain hne
        rw [hgl] at hlasth
        simpa using hlasth
      exact step_handler_clean hh hstep h2 h3
    | fatal t1 =>
      rw [hstep] at hr
      dsimp only at hr
      exact absurd hr (by simp [RunOut.resp?])
    | go t1 =>
      rw [hstep] at hr
      dsimp only at hr
      exact absurd hr (by simp [specRun, RunOut.resp?])

/-- C10, witness: retrieving the private group responds 200 with the
password blanked. -/
theorem c10_password_scrubbed_witness :
    ({ privateGroup with Password := "" } : Group).Password = "" :=
  c10_password_scrubbed retrieveChain (by decide) c10wSt
    { status := 200, body := .group { privateGroup with Password := "" } }
    (by decide) (by decide) (by decide)
    { privateGroup with Password := "" } (by decide)



/-- C3, counterexample: a database error answered with a status other
than 500.  `User.RetrieveByUsername` logs its error with `log.Errorf` and
returns it — the one schema database method whose error survives to the
handler — and `SignIn` maps its record-not-found error to HTTP 401, not
500.  Signing in with a username that has no stored row exercises exactly
this live path. -/
theorem c3_counterexample :
    (specRun signInChain c3SignInSt).resp? =
      some { status := 401, body := .err "username or password is invalid." [] } ∧
    ((specRun signInChain c3SignInSt).resp?.getD internalErrorResp).status ≠ 500 := by
  decide

/-- C3, amended: the only database errors that produce any HTTP response
are those of `SignIn`'s username lookup, whose `RetrieveByUsername` logs
with `Errorf` and returns the error: record-not-found is answered 401 and
any other lookup error 500.  Every other database failure — the group
lookup of `GroupObject` (retrieve error or absent record), the user
insert of `SignUp` (including the username UNIQUE-constraint violation),
the user lookup of `KickFromGroup` (error or absent record), and any
connection failure — is logged with logrus `Fatal*`, which terminates the
process with no response; the 500/404/400 mappings that follow those
calls in the handlers are dead code. -/
theorem c3_amended_db_error_mapping (st : St) (u : User) :
    (st.keyReqU = some u → st.dbInitFail = false →
      st.retrieveUserByNameFail = false →
      st.dbUsers.find? (fun x => x.Username == u.Username) = none →
      endpoints.SignIn st =
        .halt { status := 401, body := .err "username or password is invalid." [] } st) ∧
    (st.keyReqU = some u → st.dbInitFail = false →
      st.retrieveUserByNameFail = true →
      endpoints.SignIn st = .halt internalErrorResp st) ∧
    (st.idParam.isSome = true → st.dbInitFail = false →
      st.retrieveGroupFail = true →
      middlewares.GroupObject st = .fatal st) ∧
    (st.idParam.isSome = true → st.dbInitFail = false →
      st.retrieveGroupFail = false → st.dbGroup = none →
      middlewares.GroupObject st = .fatal st) ∧
    (st.idParam.isSome = true → st.dbInitFail = true →
      middlewares.GroupObject st = .fatal st) ∧
    (st.keyReqU = some u → u.ValidateForSignUp = none → st.dbInitFail = false →
      st.dbUsers.any (fun x => x.Username == u.Username) = true →
      endpoints.SignUp st = .fatal st) ∧
    (st.keyReqU = some u → u.ValidateForSignUp = none → st.dbInitFail = false →
      st.dbUsers.any (fun x => x.Username == u.Username) = false →
      st.createUserFail = true →
      endpoints.SignUp st = .fatal st) ∧
    (st.dbInitFail = true → endpoints.SignIn st = .fatal st) ∧
    (st.keyReqU = some u → st.dbInitFail = false → st.retrieveUserFail = false →
      st.dbUsers.find? (fun x => x.ID == u.ID) = none →
      endpoints.KickFromGroup st = .fatal st) ∧
    (st.keyReqU = some u → st.dbInitFail = false → st.retrieveUserFail = true →
      endpoints.KickFromGroup st = .fatal st) := by
  refine ⟨?_, ?_, ?_, ?_, ?_, ?_, ?_, ?_, ?_, ?_⟩
  · intro hku hdbi hrf hfind
    simp [endpoints.SignIn, hku, hdbi, hrf, hfind]
  · intro hku hdbi hrf
    simp [endpoints.SignIn, hku, hdbi, hrf]
  · intro hp hdbi hrf
    obtain ⟨gid, hgid⟩ := Option.isSome_iff_exists.mp hp
    simp [middlewares.GroupObject, hgid, hdbi, hrf]
  · intro hp hdbi hrf hdb
    obtain ⟨gid, hgid⟩ := Option.isSome_iff_exists.mp hp
    simp [middlewares.GroupObject, hgid, hdbi, hrf, hdb]
  · intro hp hdbi
    obtain ⟨gid, hgid⟩ := Option.isSome_iff_exists.mp hp
    simp [middlewares.GroupObject, hgid, hdbi]
  · intro hku hv hdbi htaken
    simp [endpoints.SignUp, hku, hv, hdbi, htaken]
  · intro hku hv hdbi htaken hcf
    simp [endpoints.SignUp, hku, hv, hdbi, htaken, hcf]
  · intro hdbi
    simp [endpoints.SignIn, hdbi]
  · intro hku hdbi hrf hfind
    simp [endpoints.KickFromGroup, hku, hdbi, hrf, hfind]
  · intro hku hdbi hrf
    simp [endpoints.KickFromGroup, hku, hdbi, hrf]

/-- C3, witness: a sign-in for a missing user answers 401, and a group
lookup failing with a non-not-found error kills the process with no
response. -/
theorem c3_amended_db_error_mapping_witness :
    endpoints.SignIn c3wSt =
      .halt { status := 401, body := .err "username or password is invalid." [] }
        c3wSt ∧
    middlewares.GroupObject c3wSt2 = .fatal c3wSt2 :=
  ⟨(c3_amended_db_error_mapping c3wSt aliceReq).1 (by decide) (by decide)
      (by decide) (by decide),
   (c3_amended_db_error_mapping c3wSt2 aliceReq).2.2.1 (by decide) (by decide)
      (by decide)⟩


end LFG
